import Mathlib

/-!
# Dog Pacman: a shallow embedding of `main.go` and its verified properties

The game state of `main.go` is embedded as a Lean structure and every method of
`*Game` as a function on that structure.  Go's `int` is the 64-bit signed integer:
it is modelled by `GoInt`, an integer in `[-2^63, 2^63)`, whose `+`, `-` and unary `-`
wrap around modulo `2^64` as in Go, and whose `/` and `%` truncate towards zero
(`Int.tdiv`, `Int.tmod`).  `len` of a string is its UTF-8 byte size, and a Go run-time
panic (index out of range, integer division by zero) is the error side of
`Except GoPanic`.  The two draws of `math/rand` taken by `maybeSpawnObject` are
parameters of the embedded function.
-/

namespace Pacman

/-! ## Go's `int` -/

/-- Smallest value of Go's 64-bit `int`. -/
def MinInt64 : Int := -9223372036854775808

/-- Largest value of Go's 64-bit `int`. -/
def MaxInt64 : Int := 9223372036854775807

/-- A value of Go's 64-bit `int`: an integer in `[-2^63, 2^63)`. -/
structure GoInt where
  val : Int
  lo : -9223372036854775808 ≤ val
  hi : val ≤ 9223372036854775807

namespace GoInt

instance : DecidableEq GoInt := fun a b =>
  if h : a.val = b.val then
    isTrue (by cases a; cases b; simp only at h; subst h; rfl)
  else isFalse (fun e => h (by rw [e]))

instance : Repr GoInt := ⟨fun a n => reprPrec a.val n⟩

/-- The 64-bit value an integer wraps around to (two's complement). -/
def wrap (z : Int) : GoInt :=
  ⟨(z + 9223372036854775808) % 18446744073709551616 - 9223372036854775808,
    by omega, by omega⟩

instance : Add GoInt := ⟨fun a b => wrap (a.val + b.val)⟩
instance : Sub GoInt := ⟨fun a b => wrap (a.val - b.val)⟩
instance : Neg GoInt := ⟨fun a => wrap (-a.val)⟩
instance (n : Nat) : OfNat GoInt n := ⟨wrap (n : Int)⟩
instance : LT GoInt := ⟨fun a b => a.val < b.val⟩
instance : LE GoInt := ⟨fun a b => a.val ≤ b.val⟩
instance (a b : GoInt) : Decidable (a < b) := inferInstanceAs (Decidable (a.val < b.val))
instance (a b : GoInt) : Decidable (a ≤ b) := inferInstanceAs (Decidable (a.val ≤ b.val))

/-- Go's `a / b` for `b != 0`: the quotient truncated towards zero. -/
def quo (a b : GoInt) : GoInt := wrap (Int.tdiv a.val b.val)

/-- Go's `a % b` for `b != 0`: the remainder of the truncated division. -/
def rem (a b : GoInt) : GoInt := wrap (Int.tmod a.val b.val)

/-- The value of a natural number as a Go `int`. -/
def ofNat (n : Nat) : GoInt := wrap (n : Int)

end GoInt

/-! ## Data model -/

/-- Run-time panics that the simulation core of `main.go` can raise. -/
inductive GoPanic where
  | indexOutOfRange
  | divideByZero
  deriving DecidableEq, Repr

/-- Object kind constant `ObjectPoop` (`iota` = 0). -/
def ObjectPoop : GoInt := 0
/-- Object kind constant `ObjectBone` (`iota` = 1). -/
def ObjectBone : GoInt := 1
/-- Object kind constant `ObjectCat` (`iota` = 2). -/
def ObjectCat : GoInt := 2
/-- Object kind constant `ObjectStick` (`iota` = 3). -/
def ObjectStick : GoInt := 3
/-- Number of object kinds, `ObjectTypesCount` (`iota` = 4). -/
abbrev ObjectTypesCount : Nat := 4

/-- Fixed horizontal position of the player. -/
def PlayerXPosition : GoInt := 10

/-- Settings of the game (`GameConfig`); `FrameRate` is a `time.Duration` in nanoseconds. -/
structure GameConfig where
  PlayerY : GoInt
  InitialLives : GoInt
  BaseObjectSpeed : GoInt
  FrameRate : GoInt
  BaseSpawnRate : GoInt
  ScreenWidth : GoInt
  MaxSpeed : GoInt
  MinSpawnRate : GoInt
  MouthOpenDuration : GoInt
  deriving DecidableEq, Repr

/-- The configuration returned by `DefaultGameConfig`. -/
def DefaultGameConfig : GameConfig :=
  { PlayerY := 10
    InitialLives := 5
    BaseObjectSpeed := 1
    FrameRate := 32000000
    BaseSpawnRate := 25
    ScreenWidth := 80
    MaxSpeed := 5
    MinSpawnRate := 10
    MouthOpenDuration := 8 }

/-- A sprite is a slice of strings, one per row. -/
abbrev Sprite := List String

/-- A game object: horizontal position and kind (the field `Type` of the source). -/
structure Object where
  X : GoInt
  Type_ : GoInt
  deriving DecidableEq, Repr

/-- Difficulty settings of the current level. -/
structure LevelConfig where
  ObjectSpeed : GoInt
  SpawnRate : GoInt
  deriving DecidableEq, Repr

/-- All sprites of the game. -/
structure GameSprites where
  DogClosed : Sprite
  DogOpen : Sprite
  Objects : List Sprite
  deriving DecidableEq, Repr

/-- The game state. -/
structure Game where
  Config : GameConfig
  MouthOpen : Bool
  MouthTime : GoInt
  Lives : GoInt
  Objects : List Object
  FrameCount : GoInt
  Score : GoInt
  Sprites : GameSprites
  deriving DecidableEq, Repr

/-- The sprites built by `NewGameSprites`. -/
def NewGameSprites : GameSprites :=
  { DogClosed := [" \\___/ ", " (o o) ", " (___) "]
    DogOpen := [" \\___/ ", " (o o) ", " (___O "]
    Objects :=
      [ [" @@ ", "@@@@"],
        ["   ___", "__/   \\"],
        [" /\\_/\\ ", "( o.o )", " > ^ < "],
        ["  _____", "_/     "] ] }

/-- The state built by `NewGame`. -/
def NewGame (config : GameConfig) : Game :=
  { Config := config
    MouthOpen := false
    MouthTime := 0
    Lives := config.InitialLives
    Objects := []
    FrameCount := 0
    Score := 0
    Sprites := NewGameSprites }

/-! ## Go primitives -/

/-- Go slice indexing `xs[i]` with an `int` index: panics outside `0 <= i < len(xs)`. -/
def index {α : Type} (xs : List α) (i : GoInt) : Except GoPanic α :=
  if i.val < 0 then .error .indexOutOfRange
  else
    match xs.get? i.val.toNat with
    | some x => .ok x
    | none => .error .indexOutOfRange

/-- Go `len` of a string: its number of bytes. -/
def strLen (s : String) : GoInt := GoInt.ofNat s.utf8ByteSize

/-- Go `len` of a slice. -/
def sliceLen {α : Type} (xs : List α) : GoInt := GoInt.ofNat xs.length

/-! ## Terminal events (the part of `termbox.Event` that `HandleInput` reads) -/

/-- Event kind `termbox.EventKey` (first value of the library's `EventType` enumeration). -/
def EventKey : Nat := 0
/-- Key code `termbox.KeyEsc`. -/
def KeyEsc : Nat := 0x1B
/-- Key code `termbox.KeySpace`. -/
def KeySpace : Nat := 0x20

/-- The rune literal `'q'`. -/
def runeQ : Int := 113

/-- The fields of `termbox.Event` read by `HandleInput`: the event kind (`Type` in the
library), the key code and the character. -/
structure Event where
  Type_ : Nat
  Key : Nat
  Ch : Int
  deriving DecidableEq, Repr

/-! ## Difficulty model -/

/-- Embedding of `GetLevelConfig`: difficulty settings derived from the current score. -/
def GetLevelConfig (g : Game) : LevelConfig :=
  let speed := g.Config.BaseObjectSpeed
  let spawnRate := g.Config.BaseSpawnRate
  let levelIncrease := GoInt.quo g.Score 10
  let speed := speed + levelIncrease
  let speed := if speed > g.Config.MaxSpeed then g.Config.MaxSpeed else speed
  let spawnRate := spawnRate - levelIncrease
  let spawnRate := if spawnRate < g.Config.MinSpawnRate then g.Config.MinSpawnRate else spawnRate
  { ObjectSpeed := speed, SpawnRate := spawnRate }

/-! ## Simulation engine -/

/-- Embedding of `updateMouth`: advance the mouth timer and close the mouth when it elapses. -/
def updateMouth (g : Game) : Game :=
  if g.MouthOpen then
    let g := { g with MouthTime := g.MouthTime + 1 }
    if g.MouthTime ≥ g.Config.MouthOpenDuration then
      { g with MouthOpen := false, MouthTime := 0 }
    else g
  else g

/-- Embedding of `CheckCollision`: overlap test of two rectangles. -/
def CheckCollision (x1 y1 w1 h1 x2 y2 w2 h2 : GoInt) : Bool :=
  decide (x1 < x2 + w2) && decide (x1 + w1 > x2) && decide (y1 < y2 + h2) && decide (y1 + h1 > y2)

/-- Embedding of `handleCollision`: the scoring rule applied to one colliding object. -/
def handleCollision (g : Game) (objectType : GoInt) : Game :=
  if g.MouthOpen && decide (objectType = ObjectPoop) then
    { g with Score := g.Score + 1 }
  else if g.MouthOpen && decide (objectType ≠ ObjectPoop) then
    { g with Lives := g.Lives - 1 }
  else if !g.MouthOpen && decide (objectType = ObjectPoop) then
    { g with Lives := g.Lives - 1 }
  else g

/-- Embedding of `checkObjectCollision`: tests the object against the player and, on a
collision, applies `handleCollision`; returns the new state and the reported flag. -/
def checkObjectCollision (g : Game) (o : Object) : Except GoPanic (Game × Bool) := do
  let sprite ← index g.Sprites.Objects o.Type_
  let row0 ← index sprite 0
  let objectWidth := strLen row0
  let objectHeight := sliceLen sprite
  let dog0 ← index g.Sprites.DogClosed 0
  let dogWidth := strLen dog0
  let dogHeight := sliceLen g.Sprites.DogClosed
  if CheckCollision PlayerXPosition g.Config.PlayerY dogWidth dogHeight
      o.X g.Config.PlayerY objectWidth objectHeight then
    return (handleCollision g o.Type_, true)
  else
    return (g, false)

/-- One iteration of the loop of `updateObjects` on the object `o` of the old slice:
`g` is the state and `newObjects` the slice built so far. -/
def updateObjectsStep (levelConfig : LevelConfig) (g : Game) (newObjects : List Object)
    (o : Object) : Except GoPanic (Game × List Object) := do
  let o := { o with X := o.X - levelConfig.ObjectSpeed }
  let (g, hit) ← checkObjectCollision g o
  if hit then
    return (g, newObjects)
  else
    let sprite ← index g.Sprites.Objects o.Type_
    let row0 ← index sprite 0
    if o.X > -(strLen row0) then
      return (g, newObjects ++ [o])
    else
      return (g, newObjects)

/-- The `for _, o := range g.Objects` loop of `updateObjects`. -/
def updateObjectsLoop (levelConfig : LevelConfig) :
    Game → List Object → List Object → Except GoPanic (Game × List Object)
  | g, newObjects, [] => .ok (g, newObjects)
  | g, newObjects, o :: rest =>
    match updateObjectsStep levelConfig g newObjects o with
    | .error e => .error e
    | .ok (g1, newObjects1) => updateObjectsLoop levelConfig g1 newObjects1 rest

/-- Embedding of `updateObjects`: move every object, resolve collisions, cull. -/
def updateObjects (g : Game) : Except GoPanic Game := do
  let levelConfig := GetLevelConfig g
  let (g1, newObjects) ← updateObjectsLoop levelConfig g [] g.Objects
  return { g1 with Objects := newObjects }

/-- Embedding of `maybeSpawnObject`; `r` is the value drawn by `rand.Intn(3)` and `k` the
value drawn by `rand.Intn(ObjectTypesCount)`. -/
def maybeSpawnObject (g : Game) (r : Fin 3) (k : Fin ObjectTypesCount) : Except GoPanic Game :=
  let levelConfig := GetLevelConfig g
  if levelConfig.SpawnRate = 0 then .error .divideByZero
  else if GoInt.rem g.FrameCount levelConfig.SpawnRate = 0 ∧ (GoInt.ofNat r.val > 0) then
    let objectType : GoInt := GoInt.ofNat k.val
    .ok { g with Objects := g.Objects ++ [{ X := g.Config.ScreenWidth, Type_ := objectType }] }
  else .ok g

/-- Embedding of `Update`: one tick of the simulation. -/
def Update (g : Game) (r : Fin 3) (k : Fin ObjectTypesCount) : Except GoPanic Game := do
  let g := updateMouth g
  let g ← updateObjects g
  let g ← maybeSpawnObject g r k
  return { g with FrameCount := g.FrameCount + 1 }

/-! ## Input controller -/

/-- Embedding of `HandleInput`: the state after the event and the returned flag. -/
def HandleInput (g : Game) (ev : Event) : Game × Bool :=
  if ev.Type_ = EventKey then
    if ev.Key = KeyEsc ∨ ev.Ch = runeQ then (g, false)
    else if ev.Key = KeySpace ∧ !g.MouthOpen then
      ({ g with MouthOpen := true, MouthTime := 0 }, true)
    else (g, true)
  else (g, true)

/-! ## Sequences of calls -/

/-- One call made by the driver loop: `Update` on a timer tick, with the values of its two
random draws, or `HandleInput` on an input event. -/
inductive Step where
  | tick (r : Fin 3) (k : Fin ObjectTypesCount)
  | input (ev : Event)
  deriving DecidableEq, Repr

/-- The state after one call. -/
def applyStep (g : Game) : Step → Except GoPanic Game
  | .tick r k => Update g r k
  | .input ev => .ok (HandleInput g ev).1

/-- The state after a sequence of calls, made in order. -/
def applySteps : Game → List Step → Except GoPanic Game
  | g, [] => .ok g
  | g, s :: rest =>
    match applyStep g s with
    | .error e => .error e
    | .ok g1 => applySteps g1 rest

/-- Number of `Update` calls in a sequence of calls. -/
def tickCount : List Step → Nat
  | [] => 0
  | .tick _ _ :: rest => tickCount rest + 1
  | .input _ :: rest => tickCount rest

/-- The state after `n` successive calls of `updateObjects`. -/
def updateObjectsTimes : Nat → Game → Except GoPanic Game
  | 0, g => .ok g
  | n + 1, g =>
    match updateObjects g with
    | .error e => .error e
    | .ok g1 => updateObjectsTimes n g1

/-! ## Vocabulary of the specification -/

/-- A kind is valid when it is one of the `ObjectTypesCount` enumerated kinds. -/
def ValidKind (t : GoInt) : Prop := 0 ≤ t.val ∧ t.val < (ObjectTypesCount : Int)

instance (t : GoInt) : Decidable (ValidKind t) := by
  unfold ValidKind
  infer_instance

/-- Footprint width of a kind: the length of the first row of its sprite
(0 when the kind has no sprite or the sprite has no row). -/
def kindWidth (sp : GameSprites) (t : GoInt) : GoInt :=
  match index sp.Objects t with
  | .ok sprite =>
    match index sprite 0 with
    | .ok row0 => strLen row0
    | .error _ => 0
  | .error _ => 0

/-- Footprint height of a kind: the number of rows of its sprite. -/
def kindHeight (sp : GameSprites) (t : GoInt) : GoInt :=
  match index sp.Objects t with
  | .ok sprite => sliceLen sprite
  | .error _ => 0

/-- Footprint width of the player: the length of the first row of the closed-mouth dog. -/
def dogWidth (sp : GameSprites) : GoInt :=
  match index sp.DogClosed 0 with
  | .ok row0 => strLen row0
  | .error _ => 0

/-- Footprint height of the player: the number of rows of the closed-mouth dog. -/
def dogHeight (sp : GameSprites) : GoInt := sliceLen sp.DogClosed

/-- The object collides with the player: the rectangle test of `checkObjectCollision`
on the footprints of the player and of the kind of the object, both on the player row,
computed as the code computes it. -/
def collidesWithPlayer (g : Game) (o : Object) : Bool :=
  CheckCollision PlayerXPosition g.Config.PlayerY (dogWidth g.Sprites) (dogHeight g.Sprites)
    o.X g.Config.PlayerY (kindWidth g.Sprites o.Type_) (kindHeight g.Sprites o.Type_)

/-- The rectangles of the player and of the object share a cell, over the integers. -/
def overlapsPlayer (g : Game) (o : Object) : Prop :=
  PlayerXPosition.val < o.X.val + (kindWidth g.Sprites o.Type_).val ∧
  PlayerXPosition.val + (dogWidth g.Sprites).val > o.X.val ∧
  g.Config.PlayerY.val < g.Config.PlayerY.val + (kindHeight g.Sprites o.Type_).val ∧
  g.Config.PlayerY.val + (dogHeight g.Sprites).val > g.Config.PlayerY.val

instance (g : Game) (o : Object) : Decidable (overlapsPlayer g o) := by
  unfold overlapsPlayer
  infer_instance

/-- The object moved to the left by `speed`, as the code moves it. -/
def moveObject (speed : GoInt) (o : Object) : Object := { o with X := o.X - speed }

/-- The state after the collision check of one moved object: `handleCollision` is applied
when the object collides with the player. -/
def resolveObject (g : Game) (o : Object) : Game :=
  if collidesWithPlayer g o then handleCollision g o.Type_ else g

/-- A moved object is retained: it does not collide and is not past the left edge. -/
def retained (g : Game) (o : Object) : Bool :=
  !collidesWithPlayer g o && decide (o.X > -(kindWidth g.Sprites o.Type_))

/-- Number of live objects that collide with the player once moved by the speed of the
level of `g`. -/
def collisionCount (g : Game) : Nat :=
  ((g.Objects.map (moveObject (GetLevelConfig g).ObjectSpeed)).filter
    (collidesWithPlayer g)).length

/-- The state after the loop of `updateObjects` when no lookup fails: the collision checks
applied in order to the moved objects, and the retained objects as the new live list. -/
def afterObjects (g : Game) : Game :=
  { (g.Objects.map (moveObject (GetLevelConfig g).ObjectSpeed)).foldl resolveObject g with
    Objects := (g.Objects.map (moveObject (GetLevelConfig g).ObjectSpeed)).filter (retained g) }

/-- States on which no lookup of the simulation can fail: the sprites are those of
`NewGameSprites`, every live object has a valid kind and the minimum spawn rate is positive. -/
def WellFormed (g : Game) : Prop :=
  g.Sprites = NewGameSprites ∧ (∀ o ∈ g.Objects, ValidKind o.Type_) ∧
    0 < g.Config.MinSpawnRate.val

/-- The moved objects that collide with the player in a call of `updateObjects`, in order. -/
def collidingObjects (g : Game) : List Object :=
  (g.Objects.map (moveObject (GetLevelConfig g).ObjectSpeed)).filter (collidesWithPlayer g)

/-- Number of objects of kind `ObjectPoop` in a list. -/
def poopCount (l : List Object) : Nat := l.countP (fun o => decide (o.Type_ = ObjectPoop))

/-- Number of objects of a kind other than `ObjectPoop` in a list. -/
def otherCount (l : List Object) : Nat := l.countP (fun o => decide (o.Type_ ≠ ObjectPoop))

/-- The mouth-timer invariant: a closed mouth has its timer at 0, an open mouth has its
timer in `[0, MouthOpenDuration)`. -/
def MouthInv (g : Game) : Prop :=
  (g.MouthOpen = false → g.MouthTime.val = 0) ∧
  (g.MouthOpen = true →
    0 ≤ g.MouthTime.val ∧ g.MouthTime.val < g.Config.MouthOpenDuration.val)

/-- The sprite-indexing invariant: every live object has a kind in
`[0, ObjectTypesCount)`, there are `ObjectTypesCount` object sprites, and every object
sprite has at least one row. -/
def SpriteIndexInv (g : Game) : Prop :=
  (∀ o ∈ g.Objects, 0 ≤ o.Type_.val ∧ o.Type_.val < (ObjectTypesCount : Int)) ∧
  g.Sprites.Objects.length = ObjectTypesCount ∧
  (∀ s ∈ g.Sprites.Objects, s ≠ [])

/-- A state is reachable when a sequence of `Update` and `HandleInput` calls leads to it
from the state built by `NewGame` for some config. -/
def Reachable (g : Game) : Prop :=
  ∃ (c : GameConfig) (steps : List Step), applySteps (NewGame c) steps = .ok g

/-- Lengths of the rows of a sprite, from top to bottom. -/
def rowLengths (s : Sprite) : List Int := s.map (fun row => (strLen row).val)

/-- Length of the widest row of a sprite. -/
def widestRow (s : Sprite) : Int := (rowLengths s).foldl max 0

/-- A sprite is rectangular when all its rows are as long as the first. -/
def isRectangular (s : Sprite) : Bool :=
  (rowLengths s).all (fun n => decide (n = (rowLengths s).headD 0))

/-- The object sprite of a kind (no row when the kind has no sprite). -/
def kindSprite (sp : GameSprites) (t : GoInt) : Sprite :=
  match index sp.Objects t with
  | .ok sprite => sprite
  | .error _ => []

/-! ## Sample states -/

/-- The largest Go `int`, `MaxInt64`. -/
def maxGoInt : GoInt := ⟨9223372036854775807, by decide, by decide⟩

/-- The smallest Go `int`, `MinInt64`. -/
def minGoInt : GoInt := ⟨-9223372036854775808, by decide, by decide⟩

/-- The key event of the space bar. -/
def spaceKey : Event := { Type_ := EventKey, Key := KeySpace, Ch := 0 }

/-- Seven ticks with the space bar hit again in between. -/
def sevenTicks : List Step :=
  [.tick 1 0, .input spaceKey, .tick 0 0, .tick 2 3, .input spaceKey, .input spaceKey,
   .tick 1 1, .tick 0 2, .tick 1 2, .input spaceKey, .tick 2 0]

/-- A default game with nine live objects of all four kinds around the player. -/
def crowdedGame : Game :=
  { NewGame DefaultGameConfig with
    Objects := [⟨17, 0⟩, ⟨30, 1⟩, ⟨-3, 0⟩, ⟨-4, 0⟩, ⟨11, 2⟩, ⟨18, 3⟩, ⟨4, 0⟩, ⟨5, 1⟩, ⟨7, 0⟩] }

/-- A default game with one life left and two poops just in front of the player. -/
def twoPoopGame : Game :=
  { NewGame DefaultGameConfig with Lives := 1, Objects := [⟨12, 0⟩, ⟨14, 0⟩] }

/-- A key event with character `c` and no key code. -/
def charKey (c : Int) : Event := { Type_ := EventKey, Key := 0, Ch := c }

/-- A default game whose mouth has been open for three ticks. -/
def openMouthGame : Game :=
  { NewGame DefaultGameConfig with MouthOpen := true, MouthTime := 3 }

/-- A default game with the mouth open and nine live objects, of which a poop, a cat and a
bone collide with the player in the next tick. -/
def openCrowdedGame : Game :=
  { NewGame DefaultGameConfig with
    MouthOpen := true
    Objects := [⟨17, 0⟩, ⟨30, 1⟩, ⟨-3, 0⟩, ⟨-4, 0⟩, ⟨11, 2⟩, ⟨18, 3⟩, ⟨4, 0⟩, ⟨15, 1⟩, ⟨7, 0⟩] }

/-- A fresh default game with a single poop at the right edge, `X = 80`. -/
def poopAtEdgeGame : Game :=
  { NewGame DefaultGameConfig with Objects := [⟨80, ObjectPoop⟩] }

/-- A default game at frame 24 with a score of 9, the mouth open and one poop about to be
eaten. -/
def scoreNineGame : Game :=
  { NewGame DefaultGameConfig with
    MouthOpen := true, Score := 9, FrameCount := 24, Objects := [⟨17, ObjectPoop⟩] }

/-- A fresh default game on a screen five columns wide. -/
def narrowGame : Game := NewGame { DefaultGameConfig with ScreenWidth := 5 }

/-- A default game with the mouth open and the score at `MaxInt64`. -/
def maxScoreGame : Game :=
  { NewGame DefaultGameConfig with MouthOpen := true, Score := maxGoInt }

/-- A default game with the mouth open, the score at `MaxInt64` and a poop about to be
eaten. -/
def maxScorePoopGame : Game :=
  { NewGame DefaultGameConfig with
    MouthOpen := true, Score := maxGoInt, Objects := [⟨17, ObjectPoop⟩] }

/-- A game whose player row is `MaxInt64 - 1`, with a poop about to reach the player. -/
def topRowGame : Game :=
  { NewGame { DefaultGameConfig with PlayerY := maxGoInt - 1 } with
    Objects := [⟨17, ObjectPoop⟩] }

/-- A game whose base and maximum speed are both `MaxInt64`, at a score of 10. -/
def maxSpeedGame : Game :=
  { NewGame { DefaultGameConfig with BaseObjectSpeed := maxGoInt, MaxSpeed := maxGoInt } with
    Score := 10 }

/-- A fresh default game whose frame counter is at `MaxInt64`. -/
def lastFrameGame : Game :=
  { NewGame DefaultGameConfig with FrameCount := maxGoInt }

/-! ## Arithmetic of `GoInt` -/

/-- Two Go integers with the same value are equal. -/
theorem GoInt.ext {a b : GoInt} (h : a.val = b.val) : a = b := by
  cases a; cases b; simp only at h; subst h; rfl

/-- Value of a wrapped integer. -/
theorem GoInt.val_wrap (z : Int) :
    (GoInt.wrap z).val
      = (z + 9223372036854775808) % 18446744073709551616 - 9223372036854775808 := rfl

/-- Value of a Go sum. -/
theorem GoInt.val_add (a b : GoInt) :
    (a + b).val
      = (a.val + b.val + 9223372036854775808) % 18446744073709551616
        - 9223372036854775808 := rfl

/-- Value of a Go difference. -/
theorem GoInt.val_sub (a b : GoInt) :
    (a - b).val
      = (a.val - b.val + 9223372036854775808) % 18446744073709551616
        - 9223372036854775808 := rfl

/-- Value of a Go negation. -/
theorem GoInt.val_neg (a : GoInt) :
    (-a).val
      = (-a.val + 9223372036854775808) % 18446744073709551616 - 9223372036854775808 := rfl

/-- Value of the Go integer of a natural number. -/
theorem GoInt.val_ofNat (n : Nat) :
    (GoInt.ofNat n).val
      = ((n : Int) + 9223372036854775808) % 18446744073709551616
        - 9223372036854775808 := rfl

/-- Value of the literal 0. -/
theorem GoInt.val_zero : (0 : GoInt).val = 0 := rfl

/-- Value of the literal 1. -/
theorem GoInt.val_one : (1 : GoInt).val = 1 := rfl

/-- Value of the literal 10. -/
theorem GoInt.val_ten : (10 : GoInt).val = 10 := rfl

/-- Order of Go integers is the order of their values. -/
theorem GoInt.lt_iff (a b : GoInt) : a < b ↔ a.val < b.val := Iff.rfl

/-- Order of Go integers is the order of their values. -/
theorem GoInt.le_iff (a b : GoInt) : a ≤ b ↔ a.val ≤ b.val := Iff.rfl

/-- Equality of Go integers is equality of their values. -/
theorem GoInt.eq_iff (a b : GoInt) : a = b ↔ a.val = b.val :=
  ⟨fun h => by rw [h], GoInt.ext⟩

/-- Wrapping the value of a Go integer gives it back. -/
theorem GoInt.wrap_val (a : GoInt) : GoInt.wrap a.val = a := by
  apply GoInt.ext
  have h1 := a.lo
  have h2 := a.hi
  rw [GoInt.val_wrap]
  omega

/-- The level increase `Score / 10` is the truncated quotient: it cannot overflow. -/
theorem GoInt.val_quo_ten (a : GoInt) : (GoInt.quo a 10).val = Int.tdiv a.val 10 := by
  have h1 := a.lo
  have h2 := a.hi
  show (GoInt.wrap (Int.tdiv a.val (10 : GoInt).val)).val = _
  rw [GoInt.val_wrap, GoInt.val_ten]
  rcases Int.le_total 0 a.val with h | h
  · rw [Int.tdiv_eq_ediv h (by decide)]
    omega
  · have hn : Int.tdiv a.val 10 = -(Int.tdiv (-a.val) 10) := by
      rw [Int.neg_tdiv, neg_neg]
    rw [hn, Int.tdiv_eq_ediv (by omega) (by decide)]
    omega

/-- The remainder of the truncated division lies between 0 and the dividend. -/
theorem tmod_between (a b : Int) :
    (0 ≤ a → 0 ≤ Int.tmod a b ∧ Int.tmod a b ≤ a) ∧
    (a ≤ 0 → a ≤ Int.tmod a b ∧ Int.tmod a b ≤ 0) := by
  cases a with
  | ofNat m =>
    cases b with
    | ofNat n =>
      have h := Nat.mod_le m n
      show (0 ≤ (m : Int) → 0 ≤ ((m % n : Nat) : Int) ∧ ((m % n : Nat) : Int) ≤ (m : Int)) ∧
        ((m : Int) ≤ 0 → (m : Int) ≤ ((m % n : Nat) : Int) ∧ ((m % n : Nat) : Int) ≤ 0)
      omega
    | negSucc n =>
      have h := Nat.mod_le m (n + 1)
      show (0 ≤ (m : Int) → 0 ≤ ((m % (n + 1) : Nat) : Int) ∧
          ((m % (n + 1) : Nat) : Int) ≤ (m : Int)) ∧
        ((m : Int) ≤ 0 → (m : Int) ≤ ((m % (n + 1) : Nat) : Int) ∧
          ((m % (n + 1) : Nat) : Int) ≤ 0)
      omega
  | negSucc m =>
    cases b with
    | ofNat n =>
      have h := Nat.mod_le (m + 1) n
      have e := Int.negSucc_eq m
      show (0 ≤ Int.negSucc m → 0 ≤ -(((m + 1) % n : Nat) : Int) ∧
          -(((m + 1) % n : Nat) : Int) ≤ Int.negSucc m) ∧
        (Int.negSucc m ≤ 0 → Int.negSucc m ≤ -(((m + 1) % n : Nat) : Int) ∧
          -(((m + 1) % n : Nat) : Int) ≤ 0)
      omega
    | negSucc n =>
      have h := Nat.mod_le (m + 1) (n + 1)
      have e := Int.negSucc_eq m
      show (0 ≤ Int.negSucc m → 0 ≤ -(((m + 1) % (n + 1) : Nat) : Int) ∧
          -(((m + 1) % (n + 1) : Nat) : Int) ≤ Int.negSucc m) ∧
        (Int.negSucc m ≤ 0 → Int.negSucc m ≤ -(((m + 1) % (n + 1) : Nat) : Int) ∧
          -(((m + 1) % (n + 1) : Nat) : Int) ≤ 0)
      omega

/-- Go's remainder cannot overflow: its value is the truncated remainder. -/
theorem GoInt.val_rem (a b : GoInt) : (GoInt.rem a b).val = Int.tmod a.val b.val := by
  have h1 := a.lo
  have h2 := a.hi
  obtain ⟨p, q⟩ := tmod_between a.val b.val
  show (GoInt.wrap (Int.tmod a.val b.val)).val = _
  rw [GoInt.val_wrap]
  rcases Int.le_total 0 a.val with h | h
  · have := p h
    omega
  · have := q h
    omega

/-- Go's remainder is 0 iff the truncated remainder of the values is. -/
theorem GoInt.rem_eq_zero_iff (a b : GoInt) :
    GoInt.rem a b = 0 ↔ Int.tmod a.val b.val = 0 := by
  rw [GoInt.eq_iff, GoInt.val_rem, GoInt.val_zero]

/-- A Go integer is 0 iff its value is. -/
theorem GoInt.eq_zero_iff (a : GoInt) : a = 0 ↔ a.val = 0 := by
  rw [GoInt.eq_iff, GoInt.val_zero]

/-- The draw of `rand.Intn(3)` is positive iff it is not 0. -/
theorem draw_pos_iff (r : Fin 3) : (GoInt.ofNat r.val > 0) ↔ r ≠ 0 := by
  have h : r ≠ 0 ↔ r.val ≠ 0 := by
    rw [ne_eq, ne_eq, Fin.ext_iff]; rfl
  have hr := r.isLt
  rw [h, gt_iff_lt, GoInt.lt_iff, GoInt.val_ofNat, GoInt.val_zero]
  omega

/-- Value of the kind drawn by `rand.Intn(ObjectTypesCount)`. -/
theorem val_draw (k : Fin ObjectTypesCount) : (GoInt.ofNat k.val).val = (k.val : Int) := by
  have hk : k.val < 4 := k.isLt
  rw [GoInt.val_ofNat]
  omega

/-! ## Collision resolution (`handleCollision`) -/

/-- C1 (amended): `handleCollision` implements the collision table in Go's 64-bit
arithmetic, for every state and every kind: mouth open and `ObjectPoop` adds one to `Score`
when `Score < MaxInt64`; mouth open and any other kind, or mouth closed and `ObjectPoop`,
takes one from `Lives` when `Lives > MinInt64`; mouth closed and any other kind changes
nothing.  The result differs from the input in that one field only. -/
theorem handleCollision_table (g : Game) (kind : GoInt) :
    (g.MouthOpen = true → kind = ObjectPoop → g.Score.val < MaxInt64 →
        handleCollision g kind = { g with Score := g.Score + 1 } ∧
        (g.Score + 1).val = g.Score.val + 1) ∧
    (g.MouthOpen = true → kind ≠ ObjectPoop → MinInt64 < g.Lives.val →
        handleCollision g kind = { g with Lives := g.Lives - 1 } ∧
        (g.Lives - 1).val = g.Lives.val - 1) ∧
    (g.MouthOpen = false → kind = ObjectPoop → MinInt64 < g.Lives.val →
        handleCollision g kind = { g with Lives := g.Lives - 1 } ∧
        (g.Lives - 1).val = g.Lives.val - 1) ∧
    (g.MouthOpen = false → kind ≠ ObjectPoop → handleCollision g kind = g) := by
  have s1 := g.Score.lo
  have l2 := g.Lives.hi
  simp only [MaxInt64, MinInt64]
  refine ⟨?_, ?_, ?_, ?_⟩
  · intro hm hk hr
    refine ⟨by simp [handleCollision, hm, hk], ?_⟩
    rw [GoInt.val_add, GoInt.val_one]
    omega
  · intro hm hk hr
    refine ⟨by simp [handleCollision, hm, hk], ?_⟩
    rw [GoInt.val_sub, GoInt.val_one]
    omega
  · intro hm hk hr
    refine ⟨by simp [handleCollision, hm, hk], ?_⟩
    rw [GoInt.val_sub, GoInt.val_one]
    omega
  · intro hm hk
    simp [handleCollision, hm, hk]

/-- Instance of C1 (amended) on a fresh default game with the mouth opened and closed. -/
theorem handleCollision_table_witness :
    handleCollision { NewGame DefaultGameConfig with MouthOpen := true } ObjectPoop
        = { NewGame DefaultGameConfig with MouthOpen := true, Score := 1 } ∧
    handleCollision { NewGame DefaultGameConfig with MouthOpen := true } ObjectCat
        = { NewGame DefaultGameConfig with MouthOpen := true, Lives := 4 } ∧
    handleCollision (NewGame DefaultGameConfig) ObjectPoop
        = { NewGame DefaultGameConfig with Lives := 4 } ∧
    handleCollision (NewGame DefaultGameConfig) ObjectStick = NewGame DefaultGameConfig :=
  ⟨((handleCollision_table { NewGame DefaultGameConfig with MouthOpen := true } ObjectPoop).1
      rfl rfl (by decide)).1,
   ((handleCollision_table { NewGame DefaultGameConfig with MouthOpen := true } ObjectCat).2.1
      rfl (by decide) (by decide)).1,
   ((handleCollision_table (NewGame DefaultGameConfig) ObjectPoop).2.2.1 rfl rfl
      (by decide)).1,
   (handleCollision_table (NewGame DefaultGameConfig) ObjectStick).2.2.2 rfl (by decide)⟩

/-- C1 as stated fails: in `maxScoreGame` the mouth is open and `Score = MaxInt64`; eating
a poop leaves `Score = MinInt64`, not `Score + 1`. -/
theorem handleCollision_score_wraps :
    maxScoreGame.MouthOpen = true ∧ maxScoreGame.Score.val = MaxInt64 ∧
    (handleCollision maxScoreGame ObjectPoop).Score.val = MinInt64 ∧
    (handleCollision maxScoreGame ObjectPoop).Score.val ≠ maxScoreGame.Score.val + 1 := by
  refine ⟨rfl, by decide, by decide, by decide⟩

/-! ## Difficulty model (`GetLevelConfig`) -/

/-- The level increase of a non-negative score is non-negative. -/
theorem tdiv_ten_nonneg {s : Int} (hs : 0 ≤ s) : 0 ≤ Int.tdiv s 10 := by
  rw [Int.tdiv_eq_ediv hs (by decide)]
  omega

/-- The level increase is monotone on non-negative scores. -/
theorem tdiv_ten_mono {s1 s2 : Int} (h1 : 0 ≤ s1) (h12 : s1 ≤ s2) :
    Int.tdiv s1 10 ≤ Int.tdiv s2 10 := by
  rw [Int.tdiv_eq_ediv h1 (by decide), Int.tdiv_eq_ediv (le_trans h1 h12) (by decide)]
  omega

/-- Value of the speed returned by `GetLevelConfig`, in terms of the wrapped sum. -/
theorem GetLevelConfig_speed (g : Game) :
    (GetLevelConfig g).ObjectSpeed =
      if (g.Config.BaseObjectSpeed + GoInt.quo g.Score 10).val > g.Config.MaxSpeed.val
      then g.Config.MaxSpeed else g.Config.BaseObjectSpeed + GoInt.quo g.Score 10 := rfl

/-- Value of the spawn rate returned by `GetLevelConfig`, in terms of the wrapped
difference. -/
theorem GetLevelConfig_spawn (g : Game) :
    (GetLevelConfig g).SpawnRate =
      if (g.Config.BaseSpawnRate - GoInt.quo g.Score 10).val < g.Config.MinSpawnRate.val
      then g.Config.MinSpawnRate else g.Config.BaseSpawnRate - GoInt.quo g.Score 10 := rfl

/-- When `BaseObjectSpeed + Score / 10` does not overflow, the speed is the clamped sum. -/
theorem GetLevelConfig_speed_val (g : Game)
    (hlo : MinInt64 ≤ g.Config.BaseObjectSpeed.val + Int.tdiv g.Score.val 10)
    (hhi : g.Config.BaseObjectSpeed.val + Int.tdiv g.Score.val 10 ≤ MaxInt64) :
    (GetLevelConfig g).ObjectSpeed.val
      = min (g.Config.BaseObjectSpeed.val + Int.tdiv g.Score.val 10) g.Config.MaxSpeed.val := by
  simp only [MaxInt64, MinInt64] at hlo hhi
  have e : (g.Config.BaseObjectSpeed + GoInt.quo g.Score 10).val
      = g.Config.BaseObjectSpeed.val + Int.tdiv g.Score.val 10 := by
    rw [GoInt.val_add, GoInt.val_quo_ten]
    omega
  rw [GetLevelConfig_speed, e]
  split
  · rw [min_eq_right]; omega
  · rw [e, min_eq_left]; omega

/-- When `BaseSpawnRate - Score / 10` does not overflow, the spawn rate is the clamped
difference. -/
theorem GetLevelConfig_spawn_val (g : Game)
    (hlo : MinInt64 ≤ g.Config.BaseSpawnRate.val - Int.tdiv g.Score.val 10)
    (hhi : g.Config.BaseSpawnRate.val - Int.tdiv g.Score.val 10 ≤ MaxInt64) :
    (GetLevelConfig g).SpawnRate.val
      = max (g.Config.BaseSpawnRate.val - Int.tdiv g.Score.val 10)
          g.Config.MinSpawnRate.val := by
  simp only [MaxInt64, MinInt64] at hlo hhi
  have e : (g.Config.BaseSpawnRate - GoInt.quo g.Score 10).val
      = g.Config.BaseSpawnRate.val - Int.tdiv g.Score.val 10 := by
    rw [GoInt.val_sub, GoInt.val_quo_ten]
    omega
  rw [GetLevelConfig_spawn, e]
  split
  · rw [max_eq_right]; omega
  · rw [e, max_eq_left]; omega

/-- C5 (amended): for a config with `MaxSpeed >= BaseObjectSpeed` and
`MinSpawnRate <= BaseSpawnRate` and a score `s >= 0` for which `BaseObjectSpeed + s / 10`
and `BaseSpawnRate - s / 10` stay within the 64-bit range, `GetLevelConfig` returns a
speed in `[BaseObjectSpeed, MaxSpeed]` and a spawn rate in `[MinSpawnRate, BaseSpawnRate]`. -/
theorem GetLevelConfig_bounds (g : Game)
    (hspeed : g.Config.BaseObjectSpeed.val ≤ g.Config.MaxSpeed.val)
    (hspawn : g.Config.MinSpawnRate.val ≤ g.Config.BaseSpawnRate.val)
    (hs : 0 ≤ g.Score.val)
    (hup : g.Config.BaseObjectSpeed.val + Int.tdiv g.Score.val 10 ≤ MaxInt64)
    (hdown : MinInt64 ≤ g.Config.BaseSpawnRate.val - Int.tdiv g.Score.val 10) :
    g.Config.BaseObjectSpeed.val ≤ (GetLevelConfig g).ObjectSpeed.val ∧
    (GetLevelConfig g).ObjectSpeed.val ≤ g.Config.MaxSpeed.val ∧
    g.Config.MinSpawnRate.val ≤ (GetLevelConfig g).SpawnRate.val ∧
    (GetLevelConfig g).SpawnRate.val ≤ g.Config.BaseSpawnRate.val := by
  have hl := tdiv_ten_nonneg hs
  have b1 := g.Config.BaseObjectSpeed.lo
  have b2 := g.Config.BaseSpawnRate.hi
  rw [GetLevelConfig_speed_val g (by simp only [MinInt64]; omega) hup,
    GetLevelConfig_spawn_val g hdown (by simp only [MaxInt64]; omega)]
  refine ⟨?_, ?_, ?_, ?_⟩
  · exact le_min (by omega) hspeed
  · exact min_le_right _ _
  · exact le_max_right _ _
  · exact max_le (by omega) hspawn

/-- Instance of C5 (amended): the default config at score 37. -/
theorem GetLevelConfig_bounds_witness :
    (1 : Int) ≤ (GetLevelConfig { NewGame DefaultGameConfig with Score := 37 }).ObjectSpeed.val ∧
    (GetLevelConfig { NewGame DefaultGameConfig with Score := 37 }).ObjectSpeed.val ≤ 5 ∧
    (10 : Int) ≤ (GetLevelConfig { NewGame DefaultGameConfig with Score := 37 }).SpawnRate.val ∧
    (GetLevelConfig { NewGame DefaultGameConfig with Score := 37 }).SpawnRate.val ≤ 25 :=
  GetLevelConfig_bounds { NewGame DefaultGameConfig with Score := 37 }
    (by decide) (by decide) (by decide) (by decide) (by decide)

/-- C5 as stated fails: in `maxSpeedGame` (`BaseObjectSpeed = MaxSpeed = MaxInt64`,
score 10) the sum `BaseObjectSpeed + 1` wraps to `MinInt64`, which the clamp lets through,
so the speed is below `BaseObjectSpeed`. -/
theorem GetLevelConfig_bounds_overflow :
    maxSpeedGame.Config.BaseObjectSpeed.val ≤ maxSpeedGame.Config.MaxSpeed.val ∧
    maxSpeedGame.Config.MinSpawnRate.val ≤ maxSpeedGame.Config.BaseSpawnRate.val ∧
    0 ≤ maxSpeedGame.Score.val ∧
    (GetLevelConfig maxSpeedGame).ObjectSpeed.val = MinInt64 ∧
    ¬ (maxSpeedGame.Config.BaseObjectSpeed.val ≤ (GetLevelConfig maxSpeedGame).ObjectSpeed.val) := by
  refine ⟨by decide, by decide, by decide, by decide, by decide⟩

/-- C6 (amended): `GetLevelConfig` is monotone in the score as long as nothing overflows:
for a fixed config and scores `0 <= s1 <= s2` such that `BaseObjectSpeed + s2 / 10` and
`BaseSpawnRate - s2 / 10` stay within the 64-bit range, the speed at `s1` is at most the
speed at `s2` and the spawn rate at `s1` is at least the spawn rate at `s2`. -/
theorem GetLevelConfig_mono (g : Game) (s1 s2 : GoInt) (h1 : 0 ≤ s1.val)
    (h12 : s1.val ≤ s2.val)
    (hup : g.Config.BaseObjectSpeed.val + Int.tdiv s2.val 10 ≤ MaxInt64)
    (hdown : MinInt64 ≤ g.Config.BaseSpawnRate.val - Int.tdiv s2.val 10) :
    (GetLevelConfig { g with Score := s1 }).ObjectSpeed.val
        ≤ (GetLevelConfig { g with Score := s2 }).ObjectSpeed.val ∧
    (GetLevelConfig { g with Score := s2 }).SpawnRate.val
        ≤ (GetLevelConfig { g with Score := s1 }).SpawnRate.val := by
  have hl := tdiv_ten_mono h1 h12
  have hl1 := tdiv_ten_nonneg h1
  have b1 := g.Config.BaseObjectSpeed.lo
  have b2 := g.Config.BaseSpawnRate.hi
  simp only [MaxInt64, MinInt64] at hup hdown
  rw [GetLevelConfig_speed_val { g with Score := s1 }
      (by simp only [MinInt64]; show _ ≤ g.Config.BaseObjectSpeed.val + Int.tdiv s1.val 10; omega)
      (by simp only [MaxInt64]; show g.Config.BaseObjectSpeed.val + Int.tdiv s1.val 10 ≤ _; omega),
    GetLevelConfig_speed_val { g with Score := s2 }
      (by simp only [MinInt64]; show _ ≤ g.Config.BaseObjectSpeed.val + Int.tdiv s2.val 10; omega)
      (by simp only [MaxInt64]; show g.Config.BaseObjectSpeed.val + Int.tdiv s2.val 10 ≤ _; omega),
    GetLevelConfig_spawn_val { g with Score := s1 }
      (by simp only [MinInt64]; show _ ≤ g.Config.BaseSpawnRate.val - Int.tdiv s1.val 10; omega)
      (by simp only [MaxInt64]; show g.Config.BaseSpawnRate.val - Int.tdiv s1.val 10 ≤ _; omega),
    GetLevelConfig_spawn_val { g with Score := s2 }
      (by simp only [MinInt64]; show _ ≤ g.Config.BaseSpawnRate.val - Int.tdiv s2.val 10; omega)
      (by simp only [MaxInt64]; show g.Config.BaseSpawnRate.val - Int.tdiv s2.val 10 ≤ _; omega)]
  show min (g.Config.BaseObjectSpeed.val + Int.tdiv s1.val 10) g.Config.MaxSpeed.val
      ≤ min (g.Config.BaseObjectSpeed.val + Int.tdiv s2.val 10) g.Config.MaxSpeed.val ∧
    max (g.Config.BaseSpawnRate.val - Int.tdiv s2.val 10) g.Config.MinSpawnRate.val
      ≤ max (g.Config.BaseSpawnRate.val - Int.tdiv s1.val 10) g.Config.MinSpawnRate.val
  constructor
  · exact min_le_min (by omega) (le_refl _)
  · exact max_le_max (by omega) (le_refl _)

/-- Instance of C6 (amended): the default config at scores 9 and 10. -/
theorem GetLevelConfig_mono_witness :
    (GetLevelConfig { NewGame DefaultGameConfig with Score := 9 }).ObjectSpeed.val
        ≤ (GetLevelConfig { NewGame DefaultGameConfig with Score := 10 }).ObjectSpeed.val ∧
    (GetLevelConfig { NewGame DefaultGameConfig with Score := 10 }).SpawnRate.val
        ≤ (GetLevelConfig { NewGame DefaultGameConfig with Score := 9 }).SpawnRate.val :=
  GetLevelConfig_mono (NewGame DefaultGameConfig) 9 10 (by decide) (by decide) (by decide)
    (by decide)

/-- C6 as stated fails: with `BaseObjectSpeed = MaxSpeed = MaxInt64` the speed is
`MaxInt64` at score 0 and `MinInt64` at score 10, so it decreases. -/
theorem GetLevelConfig_mono_overflow :
    (GetLevelConfig { maxSpeedGame with Score := 0 }).ObjectSpeed.val = MaxInt64 ∧
    (GetLevelConfig { maxSpeedGame with Score := 10 }).ObjectSpeed.val = MinInt64 ∧
    ¬ ((GetLevelConfig { maxSpeedGame with Score := 0 }).ObjectSpeed.val
        ≤ (GetLevelConfig { maxSpeedGame with Score := 10 }).ObjectSpeed.val) := by
  refine ⟨by decide, by decide, by decide⟩

/-- C7 (amended): for every config and score `s >= 0` for which
`BaseObjectSpeed + floor (s / 10)` and `BaseSpawnRate - floor (s / 10)` stay within the
64-bit range, `GetLevelConfig` returns
`ObjectSpeed = min (BaseObjectSpeed + floor (s / 10)) MaxSpeed` and
`SpawnRate = max (BaseSpawnRate - floor (s / 10)) MinSpawnRate`; with the default config a
score of 10 gives speed 2 and spawn rate 24, a score of 9 still gives 1 and 25.  The
function only reads the game: its embedding returns nothing but the level settings. -/
theorem GetLevelConfig_formula :
    (∀ g : Game, 0 ≤ g.Score.val →
      g.Config.BaseObjectSpeed.val + ⌊(g.Score.val : ℚ) / 10⌋ ≤ MaxInt64 →
      MinInt64 ≤ g.Config.BaseSpawnRate.val - ⌊(g.Score.val : ℚ) / 10⌋ →
      (GetLevelConfig g).ObjectSpeed.val
          = min (g.Config.BaseObjectSpeed.val + ⌊(g.Score.val : ℚ) / 10⌋)
              g.Config.MaxSpeed.val ∧
      (GetLevelConfig g).SpawnRate.val
          = max (g.Config.BaseSpawnRate.val - ⌊(g.Score.val : ℚ) / 10⌋)
              g.Config.MinSpawnRate.val) ∧
    GetLevelConfig { NewGame DefaultGameConfig with Score := 10 }
        = { ObjectSpeed := 2, SpawnRate := 24 } ∧
    GetLevelConfig { NewGame DefaultGameConfig with Score := 9 }
        = { ObjectSpeed := 1, SpawnRate := 25 } := by
  refine ⟨?_, by decide, by decide⟩
  intro g hs
  have hfloor : ⌊(g.Score.val : ℚ) / 10⌋ = Int.tdiv g.Score.val 10 := by
    rw [Int.tdiv_eq_ediv hs (by decide)]
    exact Rat.floor_intCast_div_natCast g.Score.val 10
  rw [hfloor]
  intro hup hdown
  have hl := tdiv_ten_nonneg hs
  have b1 := g.Config.BaseObjectSpeed.lo
  have b2 := g.Config.BaseSpawnRate.hi
  exact ⟨GetLevelConfig_speed_val g (by simp only [MinInt64]; omega) hup,
    GetLevelConfig_spawn_val g hdown (by simp only [MaxInt64]; omega)⟩

/-- Instance of C7 (amended): the default config at score 23 gives speed 3 and spawn
rate 23. -/
theorem GetLevelConfig_formula_witness :
    (GetLevelConfig { NewGame DefaultGameConfig with Score := 23 }).ObjectSpeed.val
        = min ((1 : Int) + ⌊((23 : Int) : ℚ) / 10⌋) 5 ∧
    (GetLevelConfig { NewGame DefaultGameConfig with Score := 23 }).SpawnRate.val
        = max ((25 : Int) - ⌊((23 : Int) : ℚ) / 10⌋) 10 := by
  have hfloor : ⌊((23 : Int) : ℚ) / 10⌋ = 2 := by
    norm_num [Int.floor_eq_iff]
  exact GetLevelConfig_formula.1 { NewGame DefaultGameConfig with Score := 23 }
    (by decide)
    (by
      show (1 : Int) + ⌊((23 : Int) : ℚ) / 10⌋ ≤ MaxInt64
      rw [hfloor]; decide)
    (by
      show MinInt64 ≤ (25 : Int) - ⌊((23 : Int) : ℚ) / 10⌋
      rw [hfloor]; decide)

/-- C7 as stated fails: in `maxSpeedGame` the formula gives
`min (MaxInt64 + 1) MaxInt64 = MaxInt64`, but the code returns the speed `MinInt64`. -/
theorem GetLevelConfig_formula_overflow :
    0 ≤ maxSpeedGame.Score.val ∧
    (GetLevelConfig maxSpeedGame).ObjectSpeed.val = MinInt64 ∧
    min (maxSpeedGame.Config.BaseObjectSpeed.val + ⌊(maxSpeedGame.Score.val : ℚ) / 10⌋)
      maxSpeedGame.Config.MaxSpeed.val = MaxInt64 ∧
    (GetLevelConfig maxSpeedGame).ObjectSpeed.val
      ≠ min (maxSpeedGame.Config.BaseObjectSpeed.val + ⌊(maxSpeedGame.Score.val : ℚ) / 10⌋)
          maxSpeedGame.Config.MaxSpeed.val := by
  have hfloor : ⌊(maxSpeedGame.Score.val : ℚ) / 10⌋ = 1 := by
    rw [show maxSpeedGame.Score.val = 10 from rfl]
    norm_num
  rw [hfloor]
  refine ⟨by decide, by decide, by decide, by decide⟩

/-! ## Spawner (`maybeSpawnObject`) -/

/-- C8: when the spawn rate of the level is not zero (so that the remainder is defined),
`maybeSpawnObject` with draws `r` of `rand.Intn(3)` and `k` of `rand.Intn(ObjectTypesCount)`
returns the state with exactly one object at `X = ScreenWidth` of kind `k` appended to the
live list if `FrameCount mod SpawnRate = 0` and `r != 0`, and returns the state unchanged
otherwise; in both cases every field but `Objects` is unchanged. -/
theorem maybeSpawnObject_spec (g : Game) (r : Fin 3) (k : Fin ObjectTypesCount)
    (hrate : (GetLevelConfig g).SpawnRate ≠ 0) :
    (Int.tmod g.FrameCount.val (GetLevelConfig g).SpawnRate.val = 0 ∧ r ≠ 0 →
      maybeSpawnObject g r k = .ok { g with
        Objects := g.Objects ++
          [{ X := g.Config.ScreenWidth, Type_ := GoInt.ofNat k.val }] }) ∧
    (¬ (Int.tmod g.FrameCount.val (GetLevelConfig g).SpawnRate.val = 0 ∧ r ≠ 0) →
      maybeSpawnObject g r k = .ok g) := by
  constructor
  · intro h
    have h2 : GoInt.rem g.FrameCount (GetLevelConfig g).SpawnRate = 0 ∧
        (GoInt.ofNat r.val > 0) :=
      ⟨(GoInt.rem_eq_zero_iff _ _).mpr h.1, (draw_pos_iff r).mpr h.2⟩
    simp only [maybeSpawnObject, if_neg hrate, if_pos h2]
  · intro h
    have h2 : ¬ (GoInt.rem g.FrameCount (GetLevelConfig g).SpawnRate = 0 ∧
        (GoInt.ofNat r.val > 0)) :=
      fun hc => h ⟨(GoInt.rem_eq_zero_iff _ _).mp hc.1, (draw_pos_iff r).mp hc.2⟩
    simp only [maybeSpawnObject, if_neg hrate, if_neg h2]

/-- Instance of C8: at frame 0 of a fresh default game a draw `r = 1` spawns a cat
(`k = 2`) at the right edge. -/
theorem maybeSpawnObject_spec_witness :
    maybeSpawnObject (NewGame DefaultGameConfig) 1 2
      = .ok { NewGame DefaultGameConfig with Objects := [{ X := 80, Type_ := 2 }] } :=
  (maybeSpawnObject_spec (NewGame DefaultGameConfig) 1 2 (by decide)).1 (by decide)

/-! ## Collision detection (`CheckCollision`) -/

/-- C9 (amended): `CheckCollision` is axis-aligned rectangle overlap as long as its four
sums do not overflow: for positive widths and heights with `x1+w1`, `x2+w2`, `y1+h1` and
`y2+h2` at most `MaxInt64`, it is true iff `x1 < x2+w2`, `x1+w1 > x2`, `y1 < y2+h2` and
`y1+h1 > y2` hold over the integers, which holds iff the two rectangles share an integer
cell. -/
theorem CheckCollision_iff (x1 y1 w1 h1 x2 y2 w2 h2 : GoInt)
    (hw1 : 0 < w1.val) (hh1 : 0 < h1.val) (hw2 : 0 < w2.val) (hh2 : 0 < h2.val)
    (hx1 : x1.val + w1.val ≤ MaxInt64) (hx2 : x2.val + w2.val ≤ MaxInt64)
    (hy1 : y1.val + h1.val ≤ MaxInt64) (hy2 : y2.val + h2.val ≤ MaxInt64) :
    (CheckCollision x1 y1 w1 h1 x2 y2 w2 h2 = true ↔
      (x1.val < x2.val + w2.val ∧ x1.val + w1.val > x2.val ∧
        y1.val < y2.val + h2.val ∧ y1.val + h1.val > y2.val)) ∧
    ((x1.val < x2.val + w2.val ∧ x1.val + w1.val > x2.val ∧
        y1.val < y2.val + h2.val ∧ y1.val + h1.val > y2.val) ↔
      ∃ x y : Int, (x1.val ≤ x ∧ x < x1.val + w1.val) ∧ (y1.val ≤ y ∧ y < y1.val + h1.val) ∧
        (x2.val ≤ x ∧ x < x2.val + w2.val) ∧ (y2.val ≤ y ∧ y < y2.val + h2.val)) := by
  simp only [MaxInt64] at hx1 hx2 hy1 hy2
  have a1 := x1.lo
  have a2 := x2.lo
  have a3 := y1.lo
  have a4 := y2.lo
  have e1 : (x1 + w1).val = x1.val + w1.val := by rw [GoInt.val_add]; omega
  have e2 : (x2 + w2).val = x2.val + w2.val := by rw [GoInt.val_add]; omega
  have e3 : (y1 + h1).val = y1.val + h1.val := by rw [GoInt.val_add]; omega
  have e4 : (y2 + h2).val = y2.val + h2.val := by rw [GoInt.val_add]; omega
  constructor
  · simp only [CheckCollision, Bool.and_eq_true, decide_eq_true_eq, gt_iff_lt, GoInt.lt_iff,
      e1, e2, e3, e4]
    tauto
  · constructor
    · rintro ⟨ha, hb, hc, hd⟩
      refine ⟨max x1.val x2.val, max y1.val y2.val, ?_, ?_, ?_, ?_⟩ <;> constructor <;> omega
    · rintro ⟨x, y, ⟨ha, hb⟩, ⟨hc, hd⟩, ⟨he, hf⟩, ⟨hg, hh⟩⟩
      refine ⟨?_, ?_, ?_, ?_⟩ <;> omega

/-- Instance of C9 (amended): the dog (7 x 3 at (10, 10)) and a poop (4 x 2) at x = 16. -/
theorem CheckCollision_iff_witness :
    (CheckCollision 10 10 7 3 16 10 4 2 = true ↔
      ((10 : Int) < 16 + 4 ∧ (10 : Int) + 7 > 16 ∧ (10 : Int) < 10 + 2 ∧ (10 : Int) + 3 > 10)) ∧
    (((10 : Int) < 16 + 4 ∧ (10 : Int) + 7 > 16 ∧ (10 : Int) < 10 + 2 ∧ (10 : Int) + 3 > 10) ↔
      ∃ x y : Int, (10 ≤ x ∧ x < 10 + 7) ∧ (10 ≤ y ∧ y < 10 + 3) ∧
        (16 ≤ x ∧ x < 16 + 4) ∧ (10 ≤ y ∧ y < 10 + 2)) :=
  CheckCollision_iff 10 10 7 3 16 10 4 2 (by decide) (by decide) (by decide) (by decide)
    (by decide) (by decide) (by decide) (by decide)

/-- C9 as stated fails: for the rectangles (10, 10, 7 x 3) and (16, 10, `MaxInt64` x 2) the
four inequalities hold over the integers and the cell (16, 10) is shared, but the sum
`16 + MaxInt64` wraps and `CheckCollision` is false. -/
theorem CheckCollision_overflow :
    0 < maxGoInt.val ∧
    ((10 : Int) < 16 + maxGoInt.val ∧ (10 : Int) + 7 > 16 ∧
      (10 : Int) < 10 + 2 ∧ (10 : Int) + 3 > 10) ∧
    (((10 : Int) ≤ 16 ∧ (16 : Int) < 10 + 7) ∧ ((10 : Int) ≤ 10 ∧ (10 : Int) < 10 + 3) ∧
      ((16 : Int) ≤ 16 ∧ (16 : Int) < 16 + maxGoInt.val) ∧
      ((10 : Int) ≤ 10 ∧ (10 : Int) < 10 + 2)) ∧
    CheckCollision 10 10 7 3 16 10 maxGoInt 2 = false := by
  refine ⟨by decide, by decide, by decide, by decide⟩

/-! ## Input controller (`HandleInput`) -/

/-- C10: `HandleInput` returns false exactly for quit events: for every state and event the
result is false iff the event is a key event whose key is Esc or whose character is `q`;
in particular the space key with no character returns true in every state. -/
theorem HandleInput_result (g : Game) (ev : Event) :
    ((HandleInput g ev).2 = false ↔
      (ev.Type_ = EventKey ∧ (ev.Key = KeyEsc ∨ ev.Ch = runeQ))) ∧
    (HandleInput g { Type_ := EventKey, Key := KeySpace, Ch := 0 }).2 = true := by
  constructor
  · unfold HandleInput
    split
    · split
      · simp [*]
      · split <;> simp_all
    · simp [*]
  · unfold HandleInput
    simp [KeySpace, KeyEsc, runeQ]
    split <;> rfl

/-! ## Movement and culling (`updateObjects`) -/

/-- A valid kind is one of the four enumerated kinds. -/
theorem validKind_cases {t : GoInt} (hk : ValidKind t) : t = 0 ∨ t = 1 ∨ t = 2 ∨ t = 3 := by
  simp only [ValidKind, ObjectTypesCount, Nat.cast_ofNat] at hk
  have h : t.val = 0 ∨ t.val = 1 ∨ t.val = 2 ∨ t.val = 3 := by omega
  rcases h with h | h | h | h
  · exact Or.inl (GoInt.ext h)
  · exact Or.inr (Or.inl (GoInt.ext h))
  · exact Or.inr (Or.inr (Or.inl (GoInt.ext h)))
  · exact Or.inr (Or.inr (Or.inr (GoInt.ext h)))

/-- Every valid kind has a sprite in `NewGameSprites`, and that sprite has a first row. -/
theorem index_objects_of_valid {t : GoInt} (hk : ValidKind t) :
    ∃ sprite row0, index NewGameSprites.Objects t = .ok sprite ∧ index sprite 0 = .ok row0 := by
  rcases validKind_cases hk with h | h | h | h <;> subst h <;>
    exact ⟨_, _, rfl, rfl⟩

/-- Closed form of `checkObjectCollision` on a state with the game sprites. -/
theorem checkObjectCollision_eq (g : Game) (o : Object) (hs : g.Sprites = NewGameSprites)
    (hk : ValidKind o.Type_) :
    checkObjectCollision g o = .ok (resolveObject g o, collidesWithPlayer g o) := by
  obtain ⟨sprite, row0, h1, h2⟩ := index_objects_of_valid hk
  have hd : index NewGameSprites.DogClosed 0 = .ok " \\___/ " := rfl
  simp only [checkObjectCollision, resolveObject, collidesWithPlayer, kindWidth, kindHeight,
    dogWidth, dogHeight, hs, h1, h2, hd, bind, Except.bind, pure, Except.pure]
  split <;> rename_i h <;> simp [h]

/-- `handleCollision` leaves every field but `Score` and `Lives` unchanged. -/
theorem handleCollision_frame (g : Game) (t : GoInt) :
    (handleCollision g t).Sprites = g.Sprites ∧ (handleCollision g t).Config = g.Config ∧
    (handleCollision g t).MouthOpen = g.MouthOpen ∧
    (handleCollision g t).MouthTime = g.MouthTime ∧
    (handleCollision g t).FrameCount = g.FrameCount ∧
    (handleCollision g t).Objects = g.Objects := by
  unfold handleCollision
  split
  · exact ⟨rfl, rfl, rfl, rfl, rfl, rfl⟩
  · split
    · exact ⟨rfl, rfl, rfl, rfl, rfl, rfl⟩
    · split <;> exact ⟨rfl, rfl, rfl, rfl, rfl, rfl⟩

/-- One collision check leaves every field but `Score` and `Lives` unchanged. -/
theorem resolveObject_frame (g : Game) (o : Object) :
    (resolveObject g o).Sprites = g.Sprites ∧ (resolveObject g o).Config = g.Config ∧
    (resolveObject g o).MouthOpen = g.MouthOpen ∧
    (resolveObject g o).MouthTime = g.MouthTime ∧
    (resolveObject g o).FrameCount = g.FrameCount ∧
    (resolveObject g o).Objects = g.Objects := by
  unfold resolveObject
  split
  · exact handleCollision_frame g o.Type_
  · exact ⟨rfl, rfl, rfl, rfl, rfl, rfl⟩

/-- The collision test depends on the sprites and the config only. -/
theorem collidesWithPlayer_congr {g g1 : Game} (hs : g1.Sprites = g.Sprites)
    (hc : g1.Config = g.Config) : collidesWithPlayer g1 = collidesWithPlayer g := by
  funext o
  simp only [collidesWithPlayer, hs, hc]

/-- The retention test depends on the sprites and the config only. -/
theorem retained_congr {g g1 : Game} (hs : g1.Sprites = g.Sprites) (hc : g1.Config = g.Config) :
    retained g1 = retained g := by
  funext o
  simp only [retained, collidesWithPlayer, hs, hc]

/-- Closed form of one iteration of the loop of `updateObjects`. -/
theorem updateObjectsStep_eq (lc : LevelConfig) (g : Game) (acc : List Object) (o : Object)
    (hs : g.Sprites = NewGameSprites) (hk : ValidKind o.Type_) :
    updateObjectsStep lc g acc o =
      .ok (resolveObject g (moveObject lc.ObjectSpeed o),
        acc ++ (if retained g (moveObject lc.ObjectSpeed o) then [moveObject lc.ObjectSpeed o] else [])) := by
  have hk2 : ValidKind (moveObject lc.ObjectSpeed o).Type_ := hk
  obtain ⟨sprite, row0, h1, h2⟩ := index_objects_of_valid hk
  have hk3 : kindWidth g.Sprites (moveObject lc.ObjectSpeed o).Type_ = strLen row0 := by
    simp only [kindWidth, moveObject, hs, h1, h2]
  have hs2 := (resolveObject_frame g (moveObject lc.ObjectSpeed o)).1
  have hc := checkObjectCollision_eq g (moveObject lc.ObjectSpeed o) hs hk2
  simp only [moveObject] at hc hs2 hk3
  rw [hs] at hk3
  simp only [updateObjectsStep, retained, moveObject, hc, bind, Except.bind, pure, Except.pure]
  cases hcol : collidesWithPlayer g { X := o.X - lc.ObjectSpeed, Type_ := o.Type_ }
  · simp only [hs2, hs, h1, h2, hk3]
    by_cases hx : o.X - lc.ObjectSpeed > -strLen row0
    · simp [hx]
    · simp [hx]
  · simp

/-- Closed form of the loop of `updateObjects`: the collision checks are folded over the
moved objects and the retained ones are appended in order. -/
theorem updateObjectsLoop_eq (lc : LevelConfig) (os : List Object) :
    ∀ (g : Game) (acc : List Object), g.Sprites = NewGameSprites →
      (∀ o ∈ os, ValidKind o.Type_) →
      updateObjectsLoop lc g acc os =
        .ok ((os.map (moveObject lc.ObjectSpeed)).foldl resolveObject g,
          acc ++ (os.map (moveObject lc.ObjectSpeed)).filter (retained g)) := by
  induction os with
  | nil => intro g acc _ _; simp [updateObjectsLoop]
  | cons o rest ih =>
    intro g acc hs hk
    have hko : ValidKind o.Type_ := hk o (List.mem_cons_self o rest)
    have hkr : ∀ x ∈ rest, ValidKind x.Type_ := fun x hx => hk x (List.mem_cons_of_mem o hx)
    have hfr := resolveObject_frame g (moveObject lc.ObjectSpeed o)
    have hs1 : (resolveObject g (moveObject lc.ObjectSpeed o)).Sprites = NewGameSprites := by
      rw [hfr.1, hs]
    simp only [updateObjectsLoop, updateObjectsStep_eq lc g acc o hs hko]
    rw [ih _ _ hs1 hkr, retained_congr hfr.1 hfr.2.1]
    simp only [List.map_cons, List.foldl_cons, List.filter_cons, List.append_assoc]
    split <;> simp

/-- Closed form of `updateObjects` on a state with the game sprites and valid kinds. -/
theorem updateObjects_eq (g : Game) (hs : g.Sprites = NewGameSprites)
    (hk : ∀ o ∈ g.Objects, ValidKind o.Type_) :
    updateObjects g = .ok (afterObjects g) := by
  simp only [updateObjects, updateObjectsLoop_eq (GetLevelConfig g) g.Objects g [] hs hk,
    bind, Except.bind, pure, Except.pure, List.nil_append, afterObjects]

/-- The footprint of the player is 7 wide and 3 high. -/
theorem dog_footprint : dogWidth NewGameSprites = 7 ∧ dogHeight NewGameSprites = 3 := by
  constructor <;> decide

/-- Every valid kind has a footprint between 4 and 7 wide and between 2 and 3 high. -/
theorem kind_footprint {t : GoInt} (hk : ValidKind t) :
    4 ≤ (kindWidth NewGameSprites t).val ∧ (kindWidth NewGameSprites t).val ≤ 7 ∧
    2 ≤ (kindHeight NewGameSprites t).val ∧ (kindHeight NewGameSprites t).val ≤ 3 := by
  rcases validKind_cases hk with h | h | h | h <;> subst h <;> decide

/-- When the sums of the rectangle test do not overflow, the collision reported by the code
is the overlap of the two rectangles over the integers. -/
theorem collidesWithPlayer_iff (g : Game) (o : Object) (hs : g.Sprites = NewGameSprites)
    (hk : ValidKind o.Type_)
    (hx : o.X.val + (kindWidth g.Sprites o.Type_).val ≤ MaxInt64)
    (hy : g.Config.PlayerY.val + (dogHeight g.Sprites).val ≤ MaxInt64) :
    collidesWithPlayer g o = true ↔ overlapsPlayer g o := by
  obtain ⟨dw, dh⟩ := dog_footprint
  obtain ⟨k1, k2, k3, k4⟩ := kind_footprint hk
  rw [hs] at hx hy
  rw [dh] at hy
  simp only [MaxInt64] at hx hy
  have a1 := o.X.lo
  have a2 := g.Config.PlayerY.lo
  have v3 : (3 : GoInt).val = 3 := rfl
  have v7 : (7 : GoInt).val = 7 := rfl
  have v10 : PlayerXPosition.val = 10 := rfl
  rw [v3] at hy
  simp only [collidesWithPlayer, overlapsPlayer, hs, dw, dh, CheckCollision, Bool.and_eq_true,
    decide_eq_true_eq, gt_iff_lt, GoInt.lt_iff, GoInt.val_add, v3, v7, v10]
  constructor
  · rintro ⟨⟨⟨p1, p2⟩, p3⟩, p4⟩
    refine ⟨?_, ?_, ?_, ?_⟩ <;> omega
  · rintro ⟨p1, p2, p3, p4⟩
    refine ⟨⟨⟨?_, ?_⟩, ?_⟩, ?_⟩ <;> omega

/-- The culling test of the code, `X > -width`, is `X + width > 0` over the integers. -/
theorem retained_edge_iff (g : Game) (o : Object) (hs : g.Sprites = NewGameSprites)
    (hk : ValidKind o.Type_) :
    o.X > -(kindWidth g.Sprites o.Type_) ↔ o.X.val + (kindWidth g.Sprites o.Type_).val > 0 := by
  obtain ⟨k1, k2, _, _⟩ := kind_footprint hk
  rw [hs]
  rw [gt_iff_lt, GoInt.lt_iff, GoInt.val_neg]
  omega

/-- C2 (amended): on a state with the game sprites whose live objects all have a valid
kind, and in which nothing overflows (every `X - ObjectSpeed` is at least `MinInt64`, every
moved `X + width` and `PlayerY + 3` are at most `MaxInt64`), `updateObjects` returns, and
its live list is the old list with every `X` lowered by the `ObjectSpeed` of the level at
the start of the call, filtered in order to the moved objects that do not overlap the
player and have `X + width > 0`; so a moved object is removed iff it overlaps the player or
`X + width <= 0`. -/
theorem updateObjects_objects (g : Game) (hs : g.Sprites = NewGameSprites)
    (hk : ∀ o ∈ g.Objects, ValidKind o.Type_)
    (hmove : ∀ o ∈ g.Objects,
      MinInt64 ≤ o.X.val - (GetLevelConfig g).ObjectSpeed.val ∧
      o.X.val - (GetLevelConfig g).ObjectSpeed.val + (kindWidth g.Sprites o.Type_).val
        ≤ MaxInt64)
    (hrow : g.Config.PlayerY.val + (dogHeight g.Sprites).val ≤ MaxInt64) :
    ∃ g1, updateObjects g = .ok g1 ∧
      g1.Objects = (g.Objects.map (moveObject (GetLevelConfig g).ObjectSpeed)).filter
        (fun o => decide (¬ overlapsPlayer g o ∧
          o.X.val + (kindWidth g.Sprites o.Type_).val > 0)) ∧
      (∀ o ∈ g.Objects,
        (moveObject (GetLevelConfig g).ObjectSpeed o).X.val
          = o.X.val - (GetLevelConfig g).ObjectSpeed.val ∧
        (moveObject (GetLevelConfig g).ObjectSpeed o).Type_ = o.Type_) ∧
      ∀ o ∈ g.Objects.map (moveObject (GetLevelConfig g).ObjectSpeed),
        (o ∉ g1.Objects ↔
          (overlapsPlayer g o ∨ o.X.val + (kindWidth g.Sprites o.Type_).val ≤ 0)) := by
  have hval : ∀ o ∈ g.Objects,
      (moveObject (GetLevelConfig g).ObjectSpeed o).X.val
        = o.X.val - (GetLevelConfig g).ObjectSpeed.val := by
    intro o ho
    obtain ⟨m1, m2⟩ := hmove o ho
    obtain ⟨k1, k2, _, _⟩ := kind_footprint (hk o ho)
    rw [hs] at m2
    simp only [MaxInt64, MinInt64] at m1 m2
    show (o.X - (GetLevelConfig g).ObjectSpeed).val = _
    rw [GoInt.val_sub]
    omega
  have hpred : ∀ x ∈ g.Objects.map (moveObject (GetLevelConfig g).ObjectSpeed),
      retained g x = decide (¬ overlapsPlayer g x ∧
        x.X.val + (kindWidth g.Sprites x.Type_).val > 0) := by
    intro x hx
    obtain ⟨o, ho, rfl⟩ := List.mem_map.mp hx
    have hkx : ValidKind (moveObject (GetLevelConfig g).ObjectSpeed o).Type_ := hk o ho
    have hxr : (moveObject (GetLevelConfig g).ObjectSpeed o).X.val
        + (kindWidth g.Sprites (moveObject (GetLevelConfig g).ObjectSpeed o).Type_).val
          ≤ MaxInt64 := by
      rw [hval o ho]
      exact (hmove o ho).2
    have hc := collidesWithPlayer_iff g _ hs hkx hxr hrow
    have he := retained_edge_iff g (moveObject (GetLevelConfig g).ObjectSpeed o) hs hkx
    simp only [retained]
    by_cases hov : overlapsPlayer g (moveObject (GetLevelConfig g).ObjectSpeed o)
    · rw [hc.mpr hov]
      simp [hov]
    · have hcf : collidesWithPlayer g (moveObject (GetLevelConfig g).ObjectSpeed o) = false := by
        cases hcc : collidesWithPlayer g (moveObject (GetLevelConfig g).ObjectSpeed o)
        · rfl
        · exact absurd (hc.mp hcc) hov
      rw [hcf]
      simp only [Bool.not_false, Bool.true_and, hov, not_false_eq_true, true_and]
      exact decide_eq_decide.mpr he
  have hlist : (afterObjects g).Objects
      = (g.Objects.map (moveObject (GetLevelConfig g).ObjectSpeed)).filter
        (fun o => decide (¬ overlapsPlayer g o ∧
          o.X.val + (kindWidth g.Sprites o.Type_).val > 0)) :=
    List.filter_congr hpred
  refine ⟨_, updateObjects_eq g hs hk, hlist, fun o ho => ⟨hval o ho, rfl⟩, ?_⟩
  intro o ho
  rw [hlist]
  simp only [List.mem_filter, ho, true_and, decide_eq_true_eq]
  constructor
  · intro h
    by_cases hov : overlapsPlayer g o
    · exact Or.inl hov
    · right
      by_contra hc
      exact h ⟨hov, by omega⟩
  · rintro (h | h) ⟨h1, h2⟩
    · exact h1 h
    · omega

/-- Instance of C2 (amended) on `crowdedGame`: of the nine objects two collide, two are
culled and five are retained in order. -/
theorem updateObjects_objects_witness :
    ∃ g1, updateObjects crowdedGame = .ok g1 ∧
      g1.Objects = [⟨29, 1⟩, ⟨17, 3⟩, ⟨3, 0⟩, ⟨4, 1⟩, ⟨6, 0⟩] := by
  obtain ⟨g1, h1, h2, _⟩ := updateObjects_objects crowdedGame rfl (by decide) (by decide)
    (by decide)
  exact ⟨g1, h1, h2.trans (by decide)⟩

/-- C2 as stated fails: in `topRowGame` (`PlayerY = MaxInt64 - 1`) the poop moved to
`X = 16` overlaps the player, but the sum `PlayerY + 2` of the rectangle test wraps, no
collision is reported and the poop is retained. -/
theorem updateObjects_retains_overlapping :
    topRowGame.Sprites = NewGameSprites ∧ (∀ o ∈ topRowGame.Objects, ValidKind o.Type_) ∧
    (GetLevelConfig topRowGame).ObjectSpeed = 1 ∧
    overlapsPlayer topRowGame ⟨16, ObjectPoop⟩ ∧
    ∃ g1, updateObjects topRowGame = .ok g1 ∧ g1.Objects = [⟨16, ObjectPoop⟩] :=
  ⟨rfl, by decide, by decide, by decide, _, rfl, by decide⟩

/-- The sequence of collision checks leaves every field but `Score` and `Lives` unchanged. -/
theorem foldl_resolveObject_frame (l : List Object) :
    ∀ g : Game, (l.foldl resolveObject g).Sprites = g.Sprites ∧
      (l.foldl resolveObject g).Config = g.Config ∧
      (l.foldl resolveObject g).MouthOpen = g.MouthOpen ∧
      (l.foldl resolveObject g).MouthTime = g.MouthTime ∧
      (l.foldl resolveObject g).FrameCount = g.FrameCount ∧
      (l.foldl resolveObject g).Objects = g.Objects := by
  induction l with
  | nil => intro g; exact ⟨rfl, rfl, rfl, rfl, rfl, rfl⟩
  | cons o rest ih =>
    intro g
    obtain ⟨a1, a2, a3, a4, a5, a6⟩ := ih (resolveObject g o)
    obtain ⟨b1, b2, b3, b4, b5, b6⟩ := resolveObject_frame g o
    simp only [List.foldl_cons]
    exact ⟨a1.trans b1, a2.trans b2, a3.trans b3, a4.trans b4, a5.trans b5, a6.trans b6⟩

/-! ## Lives (`Update`) -/

/-- One collision takes at most one life and never gives one, unless `Lives` is
`MinInt64`. -/
theorem handleCollision_lives (g : Game) (t : GoInt) (hl : MinInt64 < g.Lives.val) :
    g.Lives.val - 1 ≤ (handleCollision g t).Lives.val ∧
    (handleCollision g t).Lives.val ≤ g.Lives.val := by
  simp only [MinInt64] at hl
  have h2 := g.Lives.hi
  have e : (g.Lives - 1).val = g.Lives.val - 1 := by
    rw [GoInt.val_sub, GoInt.val_one]; omega
  unfold handleCollision
  split
  · simp
  · split
    · show g.Lives.val - 1 ≤ (g.Lives - 1).val ∧ (g.Lives - 1).val ≤ g.Lives.val
      rw [e]; omega
    · split
      · show g.Lives.val - 1 ≤ (g.Lives - 1).val ∧ (g.Lives - 1).val ≤ g.Lives.val
        rw [e]; omega
      · simp

/-- The collision checks of one tick take at most one life per colliding object, when
there are at least as many lives as colliding objects. -/
theorem foldl_resolveObject_lives (l : List Object) :
    ∀ g : Game, ((l.filter (collidesWithPlayer g)).length : Int) ≤ g.Lives.val →
      g.Lives.val - ((l.filter (collidesWithPlayer g)).length : Int)
        ≤ (l.foldl resolveObject g).Lives.val ∧
      (l.foldl resolveObject g).Lives.val ≤ g.Lives.val := by
  induction l with
  | nil => intro g _; simp
  | cons o rest ih =>
    intro g hle
    have hfr := resolveObject_frame g o
    have hih := ih (resolveObject g o)
    rw [collidesWithPlayer_congr hfr.1 hfr.2.1] at hih
    simp only [List.foldl_cons, List.filter_cons] at hle ⊢
    cases hcol : collidesWithPlayer g o
    · have hres : resolveObject g o = g := by simp [resolveObject, hcol]
      rw [hres] at hih
      rw [hres]
      simp only [hcol, Bool.false_eq_true, if_false] at hle ⊢
      exact hih hle
    · have hres : resolveObject g o = handleCollision g o.Type_ := by
        simp [resolveObject, hcol]
      simp only [hcol, if_true, List.length_cons, Nat.cast_add, Nat.cast_one] at hle ⊢
      have hl := handleCollision_lives g o.Type_ (by simp only [MinInt64]; omega)
      rw [hres] at hih
      rw [hres]
      have := hih (by omega)
      omega

/-- The spawn rate is at least the configured minimum. -/
theorem GetLevelConfig_spawnRate_ge (g : Game) :
    g.Config.MinSpawnRate.val ≤ (GetLevelConfig g).SpawnRate.val := by
  rw [GetLevelConfig_spawn]
  split
  · exact le_refl _
  · omega

/-- The spawn rate is positive as soon as the configured minimum is. -/
theorem GetLevelConfig_spawnRate_pos (g : Game) (hmin : 0 < g.Config.MinSpawnRate.val) :
    0 < (GetLevelConfig g).SpawnRate.val :=
  lt_of_lt_of_le hmin (GetLevelConfig_spawnRate_ge g)

/-- A spawn rate of positive value is not the Go integer 0. -/
theorem spawnRate_ne_zero {a : GoInt} (h : 0 < a.val) : a ≠ 0 := by
  intro h0
  rw [GoInt.eq_zero_iff] at h0
  omega

/-- The mouth update leaves every field but `MouthOpen` and `MouthTime` unchanged. -/
theorem updateMouth_frame (g : Game) :
    (updateMouth g).Sprites = g.Sprites ∧ (updateMouth g).Config = g.Config ∧
    (updateMouth g).Objects = g.Objects ∧ (updateMouth g).Lives = g.Lives ∧
    (updateMouth g).Score = g.Score ∧ (updateMouth g).FrameCount = g.FrameCount := by
  unfold updateMouth
  split
  · dsimp only
    split <;> exact ⟨rfl, rfl, rfl, rfl, rfl, rfl⟩
  · exact ⟨rfl, rfl, rfl, rfl, rfl, rfl⟩

/-- The level settings depend on the config and the score only. -/
theorem GetLevelConfig_congr {g g1 : Game} (hc : g1.Config = g.Config)
    (hsc : g1.Score = g.Score) : GetLevelConfig g1 = GetLevelConfig g := by
  simp only [GetLevelConfig, hc, hsc]

/-- With a non-zero spawn rate the spawner returns and touches the live list only. -/
theorem maybeSpawnObject_ok (g : Game) (r : Fin 3) (k : Fin ObjectTypesCount)
    (hrate : (GetLevelConfig g).SpawnRate ≠ 0) :
    ∃ g1, maybeSpawnObject g r k = .ok g1 ∧ g1.Lives = g.Lives ∧ g1.Score = g.Score ∧
      g1.Config = g.Config ∧ g1.Sprites = g.Sprites ∧ g1.MouthOpen = g.MouthOpen ∧
      g1.MouthTime = g.MouthTime ∧ g1.FrameCount = g.FrameCount ∧
      (g1.Objects = g.Objects ∨
        g1.Objects = g.Objects ++
          [{ X := g.Config.ScreenWidth, Type_ := GoInt.ofNat k.val }]) := by
  unfold maybeSpawnObject
  simp only [if_neg hrate]
  split
  · exact ⟨_, rfl, rfl, rfl, rfl, rfl, rfl, rfl, rfl, Or.inr rfl⟩
  · exact ⟨_, rfl, rfl, rfl, rfl, rfl, rfl, rfl, rfl, Or.inl rfl⟩

/-- A spawner that returns had a non-zero spawn rate. -/
theorem maybeSpawnObject_rate {g g1 : Game} {r : Fin 3} {k : Fin ObjectTypesCount}
    (h : maybeSpawnObject g r k = .ok g1) : (GetLevelConfig g).SpawnRate ≠ 0 := by
  intro h0
  simp [maybeSpawnObject, h0] at h

/-- The objects stage leaves the sprites, the config, the mouth and the frame counter
unchanged. -/
theorem afterObjects_frame (g : Game) :
    (afterObjects g).Sprites = g.Sprites ∧ (afterObjects g).Config = g.Config ∧
    (afterObjects g).MouthOpen = g.MouthOpen ∧ (afterObjects g).MouthTime = g.MouthTime ∧
    (afterObjects g).FrameCount = g.FrameCount := by
  obtain ⟨a1, a2, a3, a4, a5, _⟩ := foldl_resolveObject_frame
    (g.Objects.map (moveObject (GetLevelConfig g).ObjectSpeed)) g
  exact ⟨a1, a2, a3, a4, a5⟩

/-- The objects stage takes at most one life per colliding object and gives none, when
there are at least as many lives as colliding objects. -/
theorem afterObjects_lives (g : Game) (hl : (collisionCount g : Int) ≤ g.Lives.val) :
    g.Lives.val - (collisionCount g : Int) ≤ (afterObjects g).Lives.val ∧
    (afterObjects g).Lives.val ≤ g.Lives.val :=
  foldl_resolveObject_lives (g.Objects.map (moveObject (GetLevelConfig g).ObjectSpeed)) g hl

/-- The number of colliding objects is not changed by the mouth update. -/
theorem collisionCount_updateMouth (g : Game) :
    collisionCount (updateMouth g) = collisionCount g := by
  obtain ⟨m1, m2, m3, m4, m5, m6⟩ := updateMouth_frame g
  simp only [collisionCount, collidesWithPlayer_congr m1 m2, GetLevelConfig_congr m2 m5, m3]

/-- On a state with the game sprites, valid kinds and a positive minimum spawn rate every
stage of `Update` returns. -/
theorem Update_ok (g : Game) (r : Fin 3) (k : Fin ObjectTypesCount)
    (hs : g.Sprites = NewGameSprites) (hk : ∀ o ∈ g.Objects, ValidKind o.Type_)
    (hmin : 0 < g.Config.MinSpawnRate.val) :
    ∃ g3, maybeSpawnObject (afterObjects (updateMouth g)) r k = .ok g3 ∧
      Update g r k = .ok { g3 with FrameCount := g3.FrameCount + 1 } := by
  obtain ⟨m1, m2, m3, m4, m5, m6⟩ := updateMouth_frame g
  have hs1 : (updateMouth g).Sprites = NewGameSprites := m1.trans hs
  have hk1 : ∀ o ∈ (updateMouth g).Objects, ValidKind o.Type_ := by rw [m3]; exact hk
  have h2 := updateObjects_eq (updateMouth g) hs1 hk1
  have hrate : (GetLevelConfig (afterObjects (updateMouth g))).SpawnRate ≠ 0 := by
    apply spawnRate_ne_zero
    apply GetLevelConfig_spawnRate_pos
    rw [(afterObjects_frame (updateMouth g)).2.1, m2]
    exact hmin
  obtain ⟨g3, h3, _⟩ := maybeSpawnObject_ok (afterObjects (updateMouth g)) r k hrate
  refine ⟨g3, h3, ?_⟩
  simp only [Update, h2, h3, bind, Except.bind, pure, Except.pure]

/-- A successful `maybeSpawnObject` leaves `Lives` and `Score` unchanged. -/
theorem maybeSpawnObject_lives {g g1 : Game} {r : Fin 3} {k : Fin ObjectTypesCount}
    (h : maybeSpawnObject g r k = .ok g1) : g1.Lives = g.Lives ∧ g1.Score = g.Score := by
  obtain ⟨g2, h2, hl, hsc, _⟩ := maybeSpawnObject_ok g r k (maybeSpawnObject_rate h)
  rw [h] at h2
  cases h2
  exact ⟨hl, hsc⟩

/-- C4 (amended): on a state with the game sprites and valid kinds, for every outcome of
the draws, the state after `Update` has `Lives` between `Lives - c` and `Lives`, where `c`
is the number of objects colliding in the tick; so `Lives` stays non-negative whenever it
is at least `c`.  `Update` does return when the minimum spawn rate is positive. -/
theorem Update_lives_nonneg (g : Game) (r : Fin 3) (k : Fin ObjectTypesCount)
    (hs : g.Sprites = NewGameSprites) (hk : ∀ o ∈ g.Objects, ValidKind o.Type_)
    (hl : (collisionCount g : Int) ≤ g.Lives.val) :
    (∀ g1, Update g r k = .ok g1 →
      0 ≤ g1.Lives.val ∧ g.Lives.val - (collisionCount g : Int) ≤ g1.Lives.val ∧
      g1.Lives.val ≤ g.Lives.val) ∧
    (0 < g.Config.MinSpawnRate.val → ∃ g1, Update g r k = .ok g1) := by
  constructor
  · intro g1 h
    obtain ⟨m1, m2, m3, m4, m5, m6⟩ := updateMouth_frame g
    have hs1 : (updateMouth g).Sprites = NewGameSprites := m1.trans hs
    have hk1 : ∀ o ∈ (updateMouth g).Objects, ValidKind o.Type_ := by rw [m3]; exact hk
    have h2 := updateObjects_eq (updateMouth g) hs1 hk1
    simp only [Update, h2, bind, Except.bind, pure, Except.pure] at h
    split at h
    · cases h
    · rename_i g3 h3
      cases h
      have hl3 := (maybeSpawnObject_lives h3).1
      have hlives := afterObjects_lives (updateMouth g)
        (by rw [collisionCount_updateMouth, m4]; exact hl)
      rw [collisionCount_updateMouth, m4] at hlives
      refine ⟨?_, ?_, ?_⟩
      · show 0 ≤ g3.Lives.val
        rw [hl3]; omega
      · show g.Lives.val - (collisionCount g : Int) ≤ g3.Lives.val
        rw [hl3]; omega
      · show g3.Lives.val ≤ g.Lives.val
        rw [hl3]; omega
  · intro hmin
    obtain ⟨g3, _, hu⟩ := Update_ok g r k hs hk hmin
    exact ⟨_, hu⟩

/-- Instance of C4 (amended) on `crowdedGame`: five lives, two colliding objects. -/
theorem Update_lives_nonneg_witness :
    ∃ g1, Update crowdedGame 1 2 = .ok g1 ∧ 0 ≤ g1.Lives.val ∧
      crowdedGame.Lives.val - (collisionCount crowdedGame : Int) ≤ g1.Lives.val ∧
      g1.Lives.val ≤ crowdedGame.Lives.val := by
  have h := Update_lives_nonneg crowdedGame 1 2 rfl (by decide) (by decide)
  obtain ⟨g1, h1⟩ := h.2 (by decide)
  exact ⟨g1, h1, h.1 g1 h1⟩

/-- C4 as stated fails: `twoPoopGame` has `Lives = 1 >= 0` and valid kinds, both poops
collide in the same tick with the mouth closed, and `Update` leaves `Lives = -1`. -/
theorem Update_lives_negative :
    0 ≤ twoPoopGame.Lives.val ∧ (∀ o ∈ twoPoopGame.Objects, ValidKind o.Type_) ∧
    twoPoopGame.Sprites = NewGameSprites ∧
    ∃ g1, Update twoPoopGame 0 0 = .ok g1 ∧ g1.Lives.val = -1 ∧ ¬ (0 ≤ g1.Lives.val) :=
  ⟨by decide, by decide, rfl, _, rfl, by decide, by decide⟩

/-! ## Mouth state machine (`HandleInput`, `updateMouth`) -/

/-- A successful collision check leaves the mouth and the config unchanged. -/
theorem checkObjectCollision_mouth {g g1 : Game} {o : Object} {hit : Bool}
    (h : checkObjectCollision g o = .ok (g1, hit)) :
    g1.MouthOpen = g.MouthOpen ∧ g1.MouthTime = g.MouthTime ∧ g1.Config = g.Config := by
  have hf := handleCollision_frame g o.Type_
  simp only [checkObjectCollision, bind, Except.bind, pure, Except.pure] at h
  split at h
  · cases h
  · split at h
    · cases h
    · split at h
      · cases h
      · split at h
        · cases h
          exact ⟨hf.2.2.1, hf.2.2.2.1, hf.2.1⟩
        · cases h
          exact ⟨rfl, rfl, rfl⟩

/-- A successful iteration of the loop leaves the mouth and the config unchanged. -/
theorem updateObjectsStep_mouth {lc : LevelConfig} {g g1 : Game} {acc acc1 : List Object}
    {o : Object} (h : updateObjectsStep lc g acc o = .ok (g1, acc1)) :
    g1.MouthOpen = g.MouthOpen ∧ g1.MouthTime = g.MouthTime ∧ g1.Config = g.Config := by
  simp only [updateObjectsStep, bind, Except.bind, pure, Except.pure] at h
  split at h
  · cases h
  · rename_i p hp
    obtain ⟨g2, hit⟩ := p
    have hm := checkObjectCollision_mouth hp
    dsimp only at h
    split at h
    · cases h; exact hm
    · split at h
      · cases h
      · split at h
        · cases h
        · split at h <;> (cases h; exact hm)

/-- A successful loop leaves the mouth and the config unchanged. -/
theorem updateObjectsLoop_mouth (lc : LevelConfig) (os : List Object) :
    ∀ (g g1 : Game) (acc acc1 : List Object),
      updateObjectsLoop lc g acc os = .ok (g1, acc1) →
      g1.MouthOpen = g.MouthOpen ∧ g1.MouthTime = g.MouthTime ∧ g1.Config = g.Config := by
  induction os with
  | nil =>
    intro g g1 acc acc1 h
    simp only [updateObjectsLoop] at h
    cases h
    exact ⟨rfl, rfl, rfl⟩
  | cons o rest ih =>
    intro g g1 acc acc1 h
    simp only [updateObjectsLoop] at h
    split at h
    · cases h
    · rename_i g2 acc2 hstep
      obtain ⟨a1, a2, a3⟩ := updateObjectsStep_mouth hstep
      obtain ⟨b1, b2, b3⟩ := ih _ _ _ _ h
      exact ⟨b1.trans a1, b2.trans a2, b3.trans a3⟩

/-- A successful `updateObjects` leaves the mouth and the config unchanged. -/
theorem updateObjects_mouth {g g1 : Game} (h : updateObjects g = .ok g1) :
    g1.MouthOpen = g.MouthOpen ∧ g1.MouthTime = g.MouthTime ∧ g1.Config = g.Config := by
  simp only [updateObjects, bind, Except.bind, pure, Except.pure] at h
  split at h
  · cases h
  · rename_i p hp
    obtain ⟨g2, acc⟩ := p
    cases h
    exact updateObjectsLoop_mouth _ _ g g2 [] acc hp

/-- A successful `maybeSpawnObject` leaves the mouth and the config unchanged. -/
theorem maybeSpawnObject_mouth {g g1 : Game} {r : Fin 3} {k : Fin ObjectTypesCount}
    (h : maybeSpawnObject g r k = .ok g1) :
    g1.MouthOpen = g.MouthOpen ∧ g1.MouthTime = g.MouthTime ∧ g1.Config = g.Config := by
  obtain ⟨g2, h2, _, _, hc, _, hm, ht, _⟩ :=
    maybeSpawnObject_ok g r k (maybeSpawnObject_rate h)
  rw [h] at h2
  cases h2
  exact ⟨hm, ht, hc⟩

/-- After a successful `Update` the mouth is as `updateMouth` left it. -/
theorem Update_mouth {g g1 : Game} {r : Fin 3} {k : Fin ObjectTypesCount}
    (h : Update g r k = .ok g1) :
    g1.MouthOpen = (updateMouth g).MouthOpen ∧ g1.MouthTime = (updateMouth g).MouthTime ∧
    g1.Config = g.Config := by
  simp only [Update, bind, Except.bind, pure, Except.pure] at h
  split at h
  · cases h
  · rename_i g2 h2
    split at h
    · cases h
    · rename_i g3 h3
      cases h
      obtain ⟨a1, a2, a3⟩ := updateObjects_mouth h2
      obtain ⟨b1, b2, b3⟩ := maybeSpawnObject_mouth h3
      exact ⟨b1.trans a1, b2.trans a2, (b3.trans a3).trans (updateMouth_frame g).2.1⟩


/-- An event received while the mouth is open leaves the state unchanged. -/
theorem HandleInput_open (g : Game) (ev : Event) (ho : g.MouthOpen = true) :
    (HandleInput g ev).1 = g := by
  unfold HandleInput
  split
  · split
    · rfl
    · split
      · rename_i h; simp [ho] at h
      · rfl
  · rfl

/-- A non-quit space-key event opens a closed mouth and resets the timer. -/
theorem HandleInput_space (g : Game) (ev : Event) (hc : g.MouthOpen = false)
    (hev : ev.Type_ = EventKey ∧ ev.Key = KeySpace ∧ ev.Ch ≠ runeQ) :
    (HandleInput g ev).1 = { g with MouthOpen := true, MouthTime := 0 } := by
  obtain ⟨h1, h2, h3⟩ := hev
  have hne : ¬ (ev.Key = KeyEsc ∨ ev.Ch = runeQ) := by
    rw [h2]
    intro h
    rcases h with h | h
    · exact absurd h (by decide)
    · exact h3 h
  rw [h2] at hne
  simp only [HandleInput, if_pos h1, h2, if_neg hne, hc]
  simp

/-- A sequence of calls is run part by part. -/
theorem applySteps_append (a b : List Step) :
    ∀ g : Game, applySteps g (a ++ b) =
      match applySteps g a with
      | .error e => .error e
      | .ok g1 => applySteps g1 b := by
  induction a with
  | nil => intro g; rfl
  | cons s rest ih =>
    intro g
    simp only [List.cons_append, applySteps]
    cases applyStep g s with
    | error e => rfl
    | ok g1 => exact ih g1

/-- The number of `Update` calls of two parts adds up. -/
theorem tickCount_append (a b : List Step) : tickCount (a ++ b) = tickCount a + tickCount b := by
  induction a with
  | nil => simp [tickCount]
  | cons s rest ih =>
    cases s with
    | tick r k => simp only [List.cons_append, tickCount, List.append_eq, ih]; omega
    | input ev => simp only [List.cons_append, tickCount, List.append_eq, ih]

/-- While fewer ticks have passed than the duration left, an open mouth stays open and its
timer counts the ticks. -/
theorem applySteps_mouth_open (steps : List Step) :
    ∀ (g g1 : Game), g.MouthOpen = true → applySteps g steps = .ok g1 →
      g.MouthTime.val + (tickCount steps : Int) < g.Config.MouthOpenDuration.val →
      g1.MouthOpen = true ∧ g1.MouthTime.val = g.MouthTime.val + (tickCount steps : Int) ∧
      g1.Config = g.Config := by
  induction steps with
  | nil =>
    intro g g1 ho h _
    simp only [applySteps] at h
    cases h
    simp [tickCount, ho]
  | cons s rest ih =>
    intro g g1 ho h hlt
    cases s with
    | input ev =>
      simp only [applySteps, applyStep, HandleInput_open g ev ho] at h
      simpa [tickCount] using ih g g1 ho h (by simpa [tickCount] using hlt)
    | tick r k =>
      simp only [applySteps, applyStep] at h
      simp only [tickCount, Nat.cast_add, Nat.cast_one] at hlt ⊢
      split at h
      · cases h
      · rename_i g2 h2
        obtain ⟨m1, m2, m3⟩ := Update_mouth h2
        have d2 := g.Config.MouthOpenDuration.hi
        have t1 := g.MouthTime.lo
        have e : (g.MouthTime + 1).val = g.MouthTime.val + 1 := by
          rw [GoInt.val_add, GoInt.val_one]; omega
        have hnc : ¬ (g.MouthTime + 1 ≥ g.Config.MouthOpenDuration) := by
          rw [ge_iff_le, GoInt.le_iff, e]; omega
        have hum : (updateMouth g).MouthOpen = true ∧
            (updateMouth g).MouthTime = g.MouthTime + 1 := by
          simp only [updateMouth, ho, if_true, if_neg hnc]
          exact ⟨trivial, trivial⟩
        rw [hum.1] at m1
        rw [hum.2] at m2
        obtain ⟨a1, a2, a3⟩ := ih g2 g1 m1 h (by rw [m2, m3, e]; omega)
        exact ⟨a1, by rw [a2, m2, e]; omega, a3.trans m3⟩

/-- The `Update` that brings the timer to the duration closes the mouth. -/
theorem Update_mouth_close {g g1 : Game} {r : Fin 3} {k : Fin ObjectTypesCount}
    (ho : g.MouthOpen = true)
    (hge : g.MouthTime.val + 1 = g.Config.MouthOpenDuration.val)
    (h : Update g r k = .ok g1) : g1.MouthOpen = false := by
  obtain ⟨m1, _, _⟩ := Update_mouth h
  rw [m1]
  have d2 := g.Config.MouthOpenDuration.hi
  have t1 := g.MouthTime.lo
  have e : (g.MouthTime + 1).val = g.MouthTime.val + 1 := by
    rw [GoInt.val_add, GoInt.val_one]; omega
  have hc : g.MouthTime + 1 ≥ g.Config.MouthOpenDuration := by
    rw [ge_iff_le, GoInt.le_iff, e]; omega
  simp only [updateMouth, ho, if_true, if_pos hc]

/-! ## Well-formed states -/

/-- The objects retained by the objects stage keep a valid kind. -/
theorem afterObjects_valid (g : Game) (hk : ∀ o ∈ g.Objects, ValidKind o.Type_) :
    ∀ o ∈ (afterObjects g).Objects, ValidKind o.Type_ := by
  intro o ho
  have hmem : o ∈ g.Objects.map (moveObject (GetLevelConfig g).ObjectSpeed) :=
    (List.mem_filter.mp ho).1
  obtain ⟨o0, h0, rfl⟩ := List.mem_map.mp hmem
  exact hk o0 h0

/-- A draw of `rand.Intn(ObjectTypesCount)` is a valid kind. -/
theorem validKind_draw (k : Fin ObjectTypesCount) : ValidKind (GoInt.ofNat k.val) := by
  have hk : k.val < 4 := k.isLt
  simp only [ValidKind, ObjectTypesCount, Nat.cast_ofNat, val_draw]
  omega

/-- `HandleInput` leaves every field but `MouthOpen` and `MouthTime` unchanged. -/
theorem HandleInput_frame (g : Game) (ev : Event) :
    (HandleInput g ev).1.Sprites = g.Sprites ∧ (HandleInput g ev).1.Config = g.Config ∧
    (HandleInput g ev).1.Objects = g.Objects ∧ (HandleInput g ev).1.Lives = g.Lives ∧
    (HandleInput g ev).1.Score = g.Score ∧ (HandleInput g ev).1.FrameCount = g.FrameCount := by
  unfold HandleInput
  split
  · split
    · exact ⟨rfl, rfl, rfl, rfl, rfl, rfl⟩
    · split <;> exact ⟨rfl, rfl, rfl, rfl, rfl, rfl⟩
  · exact ⟨rfl, rfl, rfl, rfl, rfl, rfl⟩

/-- `HandleInput` keeps a state well formed. -/
theorem HandleInput_wellFormed (g : Game) (ev : Event) (hw : WellFormed g) :
    WellFormed (HandleInput g ev).1 := by
  obtain ⟨f1, f2, f3, _⟩ := HandleInput_frame g ev
  obtain ⟨w1, w2, w3⟩ := hw
  refine ⟨f1.trans w1, ?_, ?_⟩
  · rw [f3]; exact w2
  · rw [f2]; exact w3

/-- `Update` returns on a well-formed state, for all draws, and keeps it well formed. -/
theorem Update_wellFormed (g : Game) (r : Fin 3) (k : Fin ObjectTypesCount)
    (hw : WellFormed g) : ∃ g1, Update g r k = .ok g1 ∧ WellFormed g1 := by
  obtain ⟨w1, w2, w3⟩ := hw
  obtain ⟨g3, h3, hu⟩ := Update_ok g r k w1 w2 w3
  obtain ⟨g3b, hsp, _, _, hc, hs, _, _, _, hobj⟩ :=
    maybeSpawnObject_ok (afterObjects (updateMouth g)) r k (maybeSpawnObject_rate h3)
  rw [h3] at hsp
  cases hsp
  obtain ⟨m1, m2, m3, _⟩ := updateMouth_frame g
  obtain ⟨a1, a2, _⟩ := afterObjects_frame (updateMouth g)
  have hvalid : ∀ o ∈ (afterObjects (updateMouth g)).Objects, ValidKind o.Type_ :=
    afterObjects_valid (updateMouth g) (by rw [m3]; exact w2)
  refine ⟨_, hu, ?_, ?_, ?_⟩
  · show g3.Sprites = NewGameSprites
    rw [hs, a1, m1, w1]
  · show ∀ o ∈ g3.Objects, ValidKind o.Type_
    intro o ho
    rcases hobj with hobj | hobj
    · rw [hobj] at ho; exact hvalid o ho
    · rw [hobj] at ho
      rcases List.mem_append.mp ho with ho | ho
      · exact hvalid o ho
      · rw [List.mem_singleton] at ho
        rw [ho]
        exact validKind_draw k
  · show 0 < g3.Config.MinSpawnRate.val
    rw [hc, a2, m2]; exact w3

/-- Every sequence of calls returns on a well-formed state. -/
theorem applySteps_wellFormed (steps : List Step) :
    ∀ g : Game, WellFormed g → ∃ g1, applySteps g steps = .ok g1 ∧ WellFormed g1 := by
  induction steps with
  | nil => intro g hw; exact ⟨g, rfl, hw⟩
  | cons s rest ih =>
    intro g hw
    cases s with
    | tick r k =>
      obtain ⟨g1, h1, hw1⟩ := Update_wellFormed g r k hw
      obtain ⟨g2, h2, hw2⟩ := ih g1 hw1
      exact ⟨g2, by simp only [applySteps, applyStep, h1, h2], hw2⟩
    | input ev =>
      obtain ⟨g2, h2, hw2⟩ := ih _ (HandleInput_wellFormed g ev hw)
      exact ⟨g2, by simp only [applySteps, applyStep, h2], hw2⟩

/-- C3: with `MouthOpenDuration = D` and the mouth closed, after `HandleInput` of a
space-key event and then any sequence of `Update` calls interleaved with further events,
`MouthOpen` is true while fewer than `D` Updates have been made and is false right after
the `D`-th Update (there is one only when `D >= 1`); the events received while the mouth is
open neither extend nor reset the duration.  On a well-formed state every such sequence of
calls returns. -/
theorem mouth_open_exactly_duration (g : Game) (ev : Event) (steps : List Step)
    (hclosed : g.MouthOpen = false)
    (hev : ev.Type_ = EventKey ∧ ev.Key = KeySpace ∧ ev.Ch ≠ runeQ) :
    (∀ g1, applySteps (HandleInput g ev).1 steps = .ok g1 →
      (tickCount steps : Int) < g.Config.MouthOpenDuration.val → g1.MouthOpen = true) ∧
    (∀ r k g1, applySteps (HandleInput g ev).1 (steps ++ [.tick r k]) = .ok g1 →
      (tickCount steps : Int) + 1 = g.Config.MouthOpenDuration.val → g1.MouthOpen = false) ∧
    (WellFormed g → ∀ r k, ∃ g1 g2, applySteps (HandleInput g ev).1 steps = .ok g1 ∧
      applySteps (HandleInput g ev).1 (steps ++ [.tick r k]) = .ok g2) := by
  have hsp := HandleInput_space g ev hclosed hev
  have ho : (HandleInput g ev).1.MouthOpen = true := by rw [hsp]
  have ht : (HandleInput g ev).1.MouthTime.val = 0 := by rw [hsp]; rfl
  have hc : (HandleInput g ev).1.Config = g.Config := by rw [hsp]
  refine ⟨?_, ?_, ?_⟩
  · intro g1 h hlt
    exact (applySteps_mouth_open steps _ g1 ho h (by rw [ht, hc]; omega)).1
  · intro r k g1 h heq
    rw [applySteps_append] at h
    split at h
    · cases h
    · rename_i g2 h2
      obtain ⟨a1, a2, a3⟩ := applySteps_mouth_open steps _ g2 ho h2 (by rw [ht, hc]; omega)
      simp only [applySteps, applyStep] at h
      split at h
      · cases h
      · rename_i g3 h3
        cases h
        exact Update_mouth_close a1 (by rw [a2, a3, ht, hc]; omega) h3
  · intro hw r k
    obtain ⟨g1, h1, _⟩ := applySteps_wellFormed steps _ (HandleInput_wellFormed g ev hw)
    obtain ⟨g2, h2, _⟩ := applySteps_wellFormed (steps ++ [.tick r k]) _
      (HandleInput_wellFormed g ev hw)
    exact ⟨g1, g2, h1, h2⟩

/-- Instance of C3 on a fresh default game (`D = 8`): after the space key and `sevenTicks`
the mouth is open, and one more `Update` closes it. -/
theorem mouth_open_exactly_duration_witness :
    ∃ g1 g2, applySteps (HandleInput (NewGame DefaultGameConfig) spaceKey).1 sevenTicks = .ok g1 ∧
      applySteps (HandleInput (NewGame DefaultGameConfig) spaceKey).1
        (sevenTicks ++ [.tick 1 0]) = .ok g2 ∧
      g1.MouthOpen = true ∧ g2.MouthOpen = false := by
  have h := mouth_open_exactly_duration (NewGame DefaultGameConfig) spaceKey sevenTicks
    rfl (by decide)
  obtain ⟨g1, g2, h1, h2⟩ := h.2.2 ⟨rfl, by decide, by decide⟩ 1 0
  exact ⟨g1, g2, h1, h2, h.1 g1 h1 (by decide), h.2.1 1 0 g2 h2 (by decide)⟩

/-! ## Frame of `HandleInput` -/

/-- C11: `HandleInput` changes nothing but the mouth: on a non-quit space-key event with
the mouth closed the result is the input state with `MouthOpen = true` and `MouthTime = 0`,
every other field (`Lives`, `Score`, `Objects`, `FrameCount`, `Config`, `Sprites`) being
unchanged; on every other event or state (quit, ignored event, space key with the mouth
already open) the whole state is unchanged. -/
theorem HandleInput_state (g : Game) (ev : Event) :
    ((ev.Type_ = EventKey ∧ ¬ (ev.Key = KeyEsc ∨ ev.Ch = runeQ) ∧ ev.Key = KeySpace ∧
        g.MouthOpen = false) →
      (HandleInput g ev).1 = { g with MouthOpen := true, MouthTime := 0 }) ∧
    (¬ (ev.Type_ = EventKey ∧ ¬ (ev.Key = KeyEsc ∨ ev.Ch = runeQ) ∧ ev.Key = KeySpace ∧
        g.MouthOpen = false) →
      (HandleInput g ev).1 = g) ∧
    ((HandleInput g ev).1.Lives = g.Lives ∧ (HandleInput g ev).1.Score = g.Score ∧
      (HandleInput g ev).1.Objects = g.Objects ∧
      (HandleInput g ev).1.FrameCount = g.FrameCount ∧
      (HandleInput g ev).1.Config = g.Config) := by
  refine ⟨?_, ?_, ?_⟩
  · rintro ⟨h1, h2, h3, h4⟩
    rw [h3] at h2
    simp only [HandleInput, if_pos h1, h3, if_neg h2, h4]
    simp
  · intro hn
    unfold HandleInput
    split
    · rename_i h1
      split
      · rfl
      · rename_i h2
        split
        · rename_i h3
          exfalso
          apply hn
          refine ⟨h1, h2, h3.1, ?_⟩
          have := h3.2
          simpa using this
        · rfl
    · rfl
  · obtain ⟨_, f2, f3, f4, f5, f6⟩ := HandleInput_frame g ev
    exact ⟨f4, f5, f3, f6, f2⟩

/-- Instance of C11: the space key opens the mouth of a fresh default game, and leaves a
state with the mouth already open, like the quit key `q` leaves a fresh game, unchanged. -/
theorem HandleInput_state_witness :
    (HandleInput (NewGame DefaultGameConfig) spaceKey).1
        = { NewGame DefaultGameConfig with MouthOpen := true, MouthTime := 0 } ∧
    (HandleInput openMouthGame spaceKey).1 = openMouthGame ∧
    (HandleInput (NewGame DefaultGameConfig) (charKey runeQ)).1 = NewGame DefaultGameConfig :=
  ⟨(HandleInput_state (NewGame DefaultGameConfig) spaceKey).1
      ⟨rfl, by decide, rfl, rfl⟩,
   (HandleInput_state openMouthGame spaceKey).2.1 (by decide),
   (HandleInput_state (NewGame DefaultGameConfig) (charKey runeQ)).2.1 (by decide)⟩

/-! ## Idle tick (`Update` with no live object and no spawn) -/

/-- With no live object the loop of `updateObjects` does nothing. -/
theorem updateObjects_nil (g : Game) (hobj : g.Objects = []) :
    updateObjects g = .ok { g with Objects := [] } := by
  simp only [updateObjects, hobj, updateObjectsLoop, bind, Except.bind, pure, Except.pure]

/-- C13 (amended): on a state with no live object, a non-zero spawn rate (so that the
remainder of the spawn gate is defined) and `FrameCount < MaxInt64`, when no spawn occurs in
the tick (`FrameCount mod SpawnRate` is not 0, or the draw of `rand.Intn(3)` is 0), `Update`
returns a state whose live list is still empty, whose `Score` and `Lives` are unchanged and
whose `FrameCount` is one more. -/
theorem Update_idle (g : Game) (r : Fin 3) (k : Fin ObjectTypesCount)
    (hobj : g.Objects = []) (hrate : (GetLevelConfig g).SpawnRate ≠ 0)
    (hno : Int.tmod g.FrameCount.val (GetLevelConfig g).SpawnRate.val ≠ 0 ∨ r = 0)
    (hframe : g.FrameCount.val < MaxInt64) :
    ∃ g1, Update g r k = .ok g1 ∧ g1.Objects = [] ∧ g1.Score = g.Score ∧
      g1.Lives = g.Lives ∧ g1.FrameCount.val = g.FrameCount.val + 1 := by
  obtain ⟨m1, m2, m3, m4, m5, m6⟩ := updateMouth_frame g
  have h2 := updateObjects_nil (updateMouth g) (m3.trans hobj)
  have hlc : GetLevelConfig { updateMouth g with Objects := [] } = GetLevelConfig g :=
    @GetLevelConfig_congr g { updateMouth g with Objects := [] } m2 m5
  have hrate2 : (GetLevelConfig { updateMouth g with Objects := [] }).SpawnRate ≠ 0 := by
    rw [hlc]; exact hrate
  have hfc : ({ updateMouth g with Objects := [] } : Game).FrameCount = g.FrameCount := m6
  have hgate : ¬ (GoInt.rem ({ updateMouth g with Objects := [] } : Game).FrameCount
      (GetLevelConfig { updateMouth g with Objects := [] }).SpawnRate = 0 ∧
      (GoInt.ofNat r.val > 0)) := by
    rw [hlc, hfc]
    rintro ⟨ha, hb⟩
    rcases hno with h | h
    · exact h ((GoInt.rem_eq_zero_iff _ _).mp ha)
    · exact (draw_pos_iff r).mp hb h
  have h3 : maybeSpawnObject { updateMouth g with Objects := [] } r k
      = .ok { updateMouth g with Objects := [] } := by
    simp only [maybeSpawnObject, if_neg hrate2, if_neg hgate]
  refine ⟨{ updateMouth g with Objects := [], FrameCount := (updateMouth g).FrameCount + 1 },
    ?_, rfl, m5, m4, ?_⟩
  · simp only [Update, h2, h3, bind, Except.bind, pure, Except.pure]
  · show ((updateMouth g).FrameCount + 1).val = g.FrameCount.val + 1
    have f1 := g.FrameCount.lo
    simp only [MaxInt64] at hframe
    rw [m6, GoInt.val_add, GoInt.val_one]
    omega

/-- Instance of C13 (amended): a fresh default game at frame 0 with the draw `r = 0`, and
the same game at frame 7, where the gate is closed whatever the draw. -/
theorem Update_idle_witness :
    (∃ g1, Update (NewGame DefaultGameConfig) 0 3 = .ok g1 ∧ g1.Objects = [] ∧
      g1.Score = 0 ∧ g1.Lives = 5 ∧ g1.FrameCount.val = 0 + 1) ∧
    (∃ g1, Update { NewGame DefaultGameConfig with FrameCount := 7 } 2 3 = .ok g1 ∧
      g1.Objects = [] ∧ g1.Score = 0 ∧ g1.Lives = 5 ∧ g1.FrameCount.val = 7 + 1) :=
  ⟨Update_idle (NewGame DefaultGameConfig) 0 3 rfl (by decide) (Or.inr rfl) (by decide),
   Update_idle { NewGame DefaultGameConfig with FrameCount := 7 } 2 3 rfl (by decide)
     (Or.inl (by decide)) (by decide)⟩

/-- C13 as stated fails: in `lastFrameGame` there is no live object and the gate is closed
(`MaxInt64 mod 25` is 7), but `FrameCount = MaxInt64` and the increment of `Update` wraps
to `MinInt64`. -/
theorem Update_idle_frame_wraps :
    lastFrameGame.Objects = [] ∧ (GetLevelConfig lastFrameGame).SpawnRate ≠ 0 ∧
    Int.tmod lastFrameGame.FrameCount.val (GetLevelConfig lastFrameGame).SpawnRate.val ≠ 0 ∧
    ∃ g1, Update lastFrameGame 1 0 = .ok g1 ∧ g1.FrameCount.val = MinInt64 ∧
      g1.FrameCount.val ≠ lastFrameGame.FrameCount.val + 1 :=
  ⟨rfl, by decide, by decide, _, rfl, by decide, by decide⟩

/-! ## Spawn gate (`GetLevelConfig`, `maybeSpawnObject`) -/

/-- C16: with `MinSpawnRate > 0`, for every score and whatever `BaseSpawnRate` is, the
`SpawnRate` of `GetLevelConfig` is at least `MinSpawnRate`, hence positive, and the
remainder `FrameCount mod SpawnRate` of `maybeSpawnObject` is defined: the spawner returns
without a division by zero, for all draws. -/
theorem spawn_gate_defined (g : Game) (r : Fin 3) (k : Fin ObjectTypesCount)
    (hmin : 0 < g.Config.MinSpawnRate.val) :
    g.Config.MinSpawnRate.val ≤ (GetLevelConfig g).SpawnRate.val ∧
    0 < (GetLevelConfig g).SpawnRate.val ∧
    maybeSpawnObject g r k ≠ .error .divideByZero ∧
    ∃ g1, maybeSpawnObject g r k = .ok g1 := by
  have hle := GetLevelConfig_spawnRate_ge g
  have hpos : 0 < (GetLevelConfig g).SpawnRate.val := lt_of_lt_of_le hmin hle
  obtain ⟨g1, h1, _⟩ := maybeSpawnObject_ok g r k (spawnRate_ne_zero hpos)
  refine ⟨hle, hpos, ?_, g1, h1⟩
  rw [h1]
  intro h
  cases h

/-- Instance of C16: a default config whose `BaseSpawnRate` is far below zero, at a
score of 1000. -/
theorem spawn_gate_defined_witness :
    (10 : Int) ≤ (GetLevelConfig { NewGame { DefaultGameConfig with BaseSpawnRate := -50 } with
        Score := 1000 }).SpawnRate.val ∧
    0 < (GetLevelConfig { NewGame { DefaultGameConfig with BaseSpawnRate := -50 } with
        Score := 1000 }).SpawnRate.val ∧
    maybeSpawnObject { NewGame { DefaultGameConfig with BaseSpawnRate := -50 } with
        Score := 1000 } 1 1 ≠ .error .divideByZero ∧
    ∃ g1, maybeSpawnObject { NewGame { DefaultGameConfig with BaseSpawnRate := -50 } with
        Score := 1000 } 1 1 = .ok g1 :=
  spawn_gate_defined { NewGame { DefaultGameConfig with BaseSpawnRate := -50 } with
    Score := 1000 } 1 1 (by decide)

/-! ## Collision test of an object (`checkObjectCollision`) -/

/-- Every valid kind has a sprite of positive height. -/
theorem kindHeight_pos {t : GoInt} (hk : ValidKind t) :
    0 < (kindHeight NewGameSprites t).val := by
  have h := kind_footprint hk
  omega

/-- C17 (amended): on a state with the game sprites, for every valid kind, every `X` with
`X + width kind <= MaxInt64` and every `PlayerY <= MaxInt64 - 3` (so that the sums of the
rectangle test do not overflow), `checkObjectCollision` returns and reports a collision iff
the horizontal ranges overlap, `PlayerXPosition < X + width kind` and
`PlayerXPosition + 7 > X`, 7 being the width of the dog sprite; the vertical part of the
test is then always true, so the flag depends neither on `PlayerY`, nor on the heights, nor
on the mouth, `Score` or `Lives`. -/
theorem checkObjectCollision_horizontal (g : Game) (o : Object)
    (hs : g.Sprites = NewGameSprites) (hk : ValidKind o.Type_)
    (hx : o.X.val + (kindWidth NewGameSprites o.Type_).val ≤ MaxInt64)
    (hy : g.Config.PlayerY.val + 3 ≤ MaxInt64) :
    dogWidth NewGameSprites = 7 ∧
    ∃ g1 hit, checkObjectCollision g o = .ok (g1, hit) ∧
      (hit = true ↔ (PlayerXPosition.val < o.X.val + (kindWidth NewGameSprites o.Type_).val ∧
        PlayerXPosition.val + 7 > o.X.val)) := by
  have hh := kindHeight_pos hk
  obtain ⟨dw, dh⟩ := dog_footprint
  have hc := collidesWithPlayer_iff g o hs hk (by rw [hs]; exact hx)
    (by rw [hs, dh]; exact hy)
  refine ⟨dw, _, _, checkObjectCollision_eq g o hs hk, ?_⟩
  rw [hc]
  simp only [overlapsPlayer, hs, dw, dh]
  have v3 : (3 : GoInt).val = 3 := rfl
  have v7 : (7 : GoInt).val = 7 := rfl
  rw [v3, v7]
  constructor
  · rintro ⟨a, b, _, _⟩
    exact ⟨a, b⟩
  · rintro ⟨a, b⟩
    refine ⟨a, b, ?_, ?_⟩ <;> omega

/-- Instance of C17 (amended): a cat (width 7) at `X = 16` collides on the player row
`-40`. -/
theorem checkObjectCollision_horizontal_witness :
    dogWidth NewGameSprites = 7 ∧
    ∃ g1 hit, checkObjectCollision
        (NewGame { DefaultGameConfig with PlayerY := -40 }) ⟨16, ObjectCat⟩ = .ok (g1, hit) ∧
      (hit = true ↔
        (PlayerXPosition.val < (16 : GoInt).val + (kindWidth NewGameSprites ObjectCat).val ∧
        PlayerXPosition.val + 7 > (16 : GoInt).val)) :=
  checkObjectCollision_horizontal (NewGame { DefaultGameConfig with PlayerY := -40 })
    ⟨16, ObjectCat⟩ rfl (by decide) (by decide) (by decide)

/-- C17 as stated fails: on the player row `MaxInt64 - 1` a cat at `X = 16` overlaps the
player horizontally (`10 < 16 + 7` and `10 + 7 > 16`), but `PlayerY + 3` wraps in the
rectangle test and `checkObjectCollision` reports no collision. -/
theorem checkObjectCollision_row_overflow :
    ValidKind ObjectCat ∧
    (PlayerXPosition.val < (16 : GoInt).val + (kindWidth NewGameSprites ObjectCat).val ∧
      PlayerXPosition.val + 7 > (16 : GoInt).val) ∧
    ∃ g1, checkObjectCollision
        (NewGame { DefaultGameConfig with PlayerY := maxGoInt - 1 }) ⟨16, ObjectCat⟩
      = .ok (g1, false) :=
  ⟨by decide, by decide, _, rfl⟩

/-! ## Scoring of a tick (`updateObjects`, `handleCollision`) -/

/-- Effect of the collision checks of a list of moved objects on `Score` and `Lives`, when
neither counter overflows. -/
theorem foldl_resolveObject_effect (l : List Object) :
    ∀ g : Game,
      (g.MouthOpen = true →
        g.Score.val + (poopCount (l.filter (collidesWithPlayer g)) : Int) ≤ MaxInt64) →
      MinInt64 ≤ g.Lives.val -
        (if g.MouthOpen = true then (otherCount (l.filter (collidesWithPlayer g)) : Int)
          else (poopCount (l.filter (collidesWithPlayer g)) : Int)) →
      (l.foldl resolveObject g).Score.val = g.Score.val +
        (if g.MouthOpen = true then (poopCount (l.filter (collidesWithPlayer g)) : Int)
          else 0) ∧
      (l.foldl resolveObject g).Lives.val = g.Lives.val -
        (if g.MouthOpen = true then (otherCount (l.filter (collidesWithPlayer g)) : Int)
          else (poopCount (l.filter (collidesWithPlayer g)) : Int)) := by
  induction l with
  | nil => intro g _ _; simp [poopCount, otherCount]
  | cons o rest ih =>
    intro g hsc hlv
    have hfr := resolveObject_frame g o
    have hih := ih (resolveObject g o)
    rw [collidesWithPlayer_congr hfr.1 hfr.2.1, hfr.2.2.1] at hih
    have s1 := g.Score.lo
    have s2 := g.Score.hi
    have l1 := g.Lives.lo
    have l2 := g.Lives.hi
    simp only [MaxInt64, MinInt64] at hsc hlv hih
    simp only [List.foldl_cons, List.filter_cons] at hsc hlv ⊢
    cases hcol : collidesWithPlayer g o
    · have hres : resolveObject g o = g := by simp [resolveObject, hcol]
      rw [hres] at hih
      rw [hres]
      simp only [hcol, Bool.false_eq_true, if_false] at hsc hlv ⊢
      exact hih hsc hlv
    · have hres : resolveObject g o = handleCollision g o.Type_ := by
        simp [resolveObject, hcol]
      rw [hres] at hih
      rw [hres]
      simp only [hcol, if_true, poopCount, otherCount, List.countP_cons] at hsc hlv ⊢
      simp only [poopCount, otherCount] at hih
      cases hm : g.MouthOpen
      · simp only [hm, Bool.false_eq_true, if_false, false_implies] at hsc hlv hih ⊢
        by_cases ht : o.Type_ = ObjectPoop
        · have hh : handleCollision g o.Type_ = { g with Lives := g.Lives - 1 } := by
            simp [handleCollision, hm, ht]
          rw [hh] at hih ⊢
          simp only [ht, decide_True, if_true, Nat.cast_add, Nat.cast_one, add_zero] at hlv hih ⊢
          have e : (g.Lives - 1).val = g.Lives.val - 1 := by
            rw [GoInt.val_sub, GoInt.val_one]; omega
          have := hih trivial (by show _ ≤ (g.Lives - 1).val - _; rw [e]; omega)
          obtain ⟨q1, q2⟩ := this
          refine ⟨q1, ?_⟩
          rw [q2]
          show (g.Lives - 1).val - _ = _
          rw [e]; omega
        · have hh : handleCollision g o.Type_ = g := by
            simp [handleCollision, hm, ht]
          rw [hh] at hih ⊢
          simp only [ht, decide_False, Bool.false_eq_true, if_false, Nat.cast_add,
            Nat.cast_zero, add_zero] at hlv hih ⊢
          exact hih trivial hlv
      · simp only [hm, if_true, true_implies] at hsc hlv hih ⊢
        by_cases ht : o.Type_ = ObjectPoop
        · have hh : handleCollision g o.Type_ = { g with Score := g.Score + 1 } := by
            simp [handleCollision, hm, ht]
          rw [hh] at hih ⊢
          simp only [ht, decide_True, if_true, Nat.cast_add, Nat.cast_one, ne_eq,
            not_true_eq_false, decide_False, Bool.false_eq_true, if_false, Nat.cast_zero,
            add_zero] at hsc hlv hih ⊢
          have e : (g.Score + 1).val = g.Score.val + 1 := by
            rw [GoInt.val_add, GoInt.val_one]; omega
          have := hih (by show (g.Score + 1).val + _ ≤ _; rw [e]; omega) hlv
          obtain ⟨q1, q2⟩ := this
          refine ⟨?_, q2⟩
          rw [q1]
          show (g.Score + 1).val + _ = _
          rw [e]; omega
        · have hh : handleCollision g o.Type_ = { g with Lives := g.Lives - 1 } := by
            simp [handleCollision, hm, ht]
          rw [hh] at hih ⊢
          simp only [ht, decide_False, Bool.false_eq_true, if_false, Nat.cast_add,
            Nat.cast_zero, add_zero, ne_eq, not_false_eq_true, decide_True, if_true,
            Nat.cast_one] at hsc hlv hih ⊢
          have e : (g.Lives - 1).val = g.Lives.val - 1 := by
            rw [GoInt.val_sub, GoInt.val_one]; omega
          have := hih hsc (by show _ ≤ (g.Lives - 1).val - _; rw [e]; omega)
          obtain ⟨q1, q2⟩ := this
          refine ⟨q1, ?_⟩
          rw [q2]
          show (g.Lives - 1).val - _ = _
          rw [e]; omega

/-- C15 (amended): on a state with the game sprites and valid kinds `updateObjects` returns
and applies the collision table once per colliding object, as long as the counters stay in
the 64-bit range: with `C` the moved objects that collide with the player and `M` the value
of `MouthOpen` on entry, if `Score + poops(C) <= MaxInt64` when `M` holds and `Lives` minus
its decrement is at least `MinInt64`, then `Score` grows by the number of poops in `C` if
`M` holds and by 0 otherwise, and `Lives` drops by the number of non-poops in `C` if `M`
holds and by the number of poops in `C` otherwise. -/
theorem updateObjects_scoring (g : Game) (hs : g.Sprites = NewGameSprites)
    (hk : ∀ o ∈ g.Objects, ValidKind o.Type_)
    (hscore : g.MouthOpen = true →
      g.Score.val + (poopCount (collidingObjects g) : Int) ≤ MaxInt64)
    (hlives : MinInt64 ≤ g.Lives.val -
      (if g.MouthOpen = true then (otherCount (collidingObjects g) : Int)
        else (poopCount (collidingObjects g) : Int))) :
    ∃ g1, updateObjects g = .ok g1 ∧
      g1.Score.val = g.Score.val +
        (if g.MouthOpen = true then (poopCount (collidingObjects g) : Int) else 0) ∧
      g1.Lives.val = g.Lives.val -
        (if g.MouthOpen = true then (otherCount (collidingObjects g) : Int)
          else (poopCount (collidingObjects g) : Int)) := by
  obtain ⟨e1, e2⟩ := foldl_resolveObject_effect
    (g.Objects.map (moveObject (GetLevelConfig g).ObjectSpeed)) g hscore hlives
  exact ⟨afterObjects g, updateObjects_eq g hs hk, e1, e2⟩

/-- Instance of C15 (amended): in `openCrowdedGame` (mouth open) a poop, a cat and a bone
collide, so `Score` goes from 0 to 1 and `Lives` from 5 to 3; in `crowdedGame` (mouth
closed) a poop and a cat collide, so `Score` stays 0 and `Lives` goes from 5 to 4. -/
theorem updateObjects_scoring_witness :
    (∃ g1, updateObjects openCrowdedGame = .ok g1 ∧ g1.Score.val = 1 ∧ g1.Lives.val = 3) ∧
    (∃ g1, updateObjects crowdedGame = .ok g1 ∧ g1.Score.val = 0 ∧ g1.Lives.val = 4) := by
  obtain ⟨g1, h1, s1, l1⟩ :=
    updateObjects_scoring openCrowdedGame rfl (by decide) (by decide) (by decide)
  obtain ⟨g2, h2, s2, l2⟩ :=
    updateObjects_scoring crowdedGame rfl (by decide) (by decide) (by decide)
  exact ⟨⟨g1, h1, s1.trans (by decide), l1.trans (by decide)⟩,
    ⟨g2, h2, s2.trans (by decide), l2.trans (by decide)⟩⟩

/-- C15 as stated fails: in `maxScorePoopGame` (mouth open, `Score = MaxInt64`, kinds valid)
one poop collides after the move, so `C` holds one poop, yet `Score` does not grow by 1: it
wraps to `MinInt64`. -/
theorem updateObjects_scoring_overflow :
    maxScorePoopGame.MouthOpen = true ∧
    (∀ o ∈ maxScorePoopGame.Objects, ValidKind o.Type_) ∧
    poopCount (collidingObjects maxScorePoopGame) = 1 ∧
    maxScorePoopGame.Score.val = MaxInt64 ∧
    ∃ g1, updateObjects maxScorePoopGame = .ok g1 ∧
      g1.Score.val = MinInt64 ∧
      g1.Score.val ≠ maxScorePoopGame.Score.val +
        (poopCount (collidingObjects maxScorePoopGame) : Int) :=
  ⟨rfl, by decide, by decide, rfl, _, rfl, by decide, by decide⟩

/-! ## Scenario: one poop crossing the screen (`updateObjects`) -/

/-- Replacing the live list commutes with `handleCollision`. -/
theorem handleCollision_objects (g : Game) (t : GoInt) (l : List Object) :
    handleCollision { g with Objects := l } t = { handleCollision g t with Objects := l } := by
  unfold handleCollision
  cases hm : g.MouthOpen <;> by_cases ht : t = ObjectPoop <;> simp [hm, ht]

/-- At speed 1 a single poop that is still right of the player after the move is moved by
one and nothing else changes. -/
theorem updateObjects_poop_far (g : Game) (x : GoInt) (hs : g.Sprites = NewGameSprites)
    (hspeed : (GetLevelConfig g).ObjectSpeed = 1) (hobj : g.Objects = [⟨x, ObjectPoop⟩])
    (hx : 18 ≤ x.val) :
    (x - 1).val = x.val - 1 ∧
    collidesWithPlayer g ⟨x - 1, ObjectPoop⟩ = false ∧
    updateObjects g = .ok { g with Objects := [⟨x - 1, ObjectPoop⟩] } := by
  have hv : (x - 1).val = x.val - 1 := by
    have := x.hi
    rw [GoInt.val_sub, GoInt.val_one]
    omega
  have hcol : collidesWithPlayer g ⟨x - 1, ObjectPoop⟩ = false := by
    have h17 : (PlayerXPosition + dogWidth NewGameSprites).val = 17 := by decide
    have h2 : decide (PlayerXPosition + dogWidth NewGameSprites > x - 1) = false := by
      rw [decide_eq_false_iff_not, gt_iff_lt, GoInt.lt_iff, hv, h17]
      omega
    simp only [collidesWithPlayer, hs, CheckCollision, h2, Bool.and_false, Bool.false_and]
  refine ⟨hv, hcol, ?_⟩
  rw [updateObjects_eq g hs (by
    rw [hobj]
    intro o ho
    rw [List.mem_singleton] at ho
    rw [ho]
    show ValidKind ObjectPoop
    decide)]
  have hret : retained g ⟨x - 1, ObjectPoop⟩ = true := by
    have hw : (-(kindWidth NewGameSprites ObjectPoop)).val = -4 := by decide
    have h3 : decide (x - 1 > -(kindWidth NewGameSprites ObjectPoop)) = true := by
      rw [decide_eq_true_eq, gt_iff_lt, GoInt.lt_iff, hv, hw]
      omega
    simp only [retained, hcol, hs, h3, Bool.not_false, Bool.and_self]
  simp only [afterObjects, hobj, hspeed, List.map_cons, List.map_nil, moveObject,
    List.foldl_cons, List.foldl_nil, resolveObject, hcol, List.filter_cons, hret,
    List.filter_nil]
  rfl

/-- At speed 1 a single poop at `X = 17` collides in the next call and is removed. -/
theorem updateObjects_poop_hit (g : Game) (hs : g.Sprites = NewGameSprites)
    (hrow : g.Config.PlayerY.val + 3 ≤ MaxInt64)
    (hspeed : (GetLevelConfig g).ObjectSpeed = 1) (hobj : g.Objects = [⟨17, ObjectPoop⟩]) :
    collidesWithPlayer g ⟨16, ObjectPoop⟩ = true ∧
    updateObjects g = .ok { handleCollision g ObjectPoop with Objects := [] } := by
  obtain ⟨dw, dh⟩ := dog_footprint
  have hcol : collidesWithPlayer g ⟨16, ObjectPoop⟩ = true := by
    rw [collidesWithPlayer_iff g ⟨16, ObjectPoop⟩ hs (by decide) (by rw [hs]; decide)
      (by rw [hs, dh]; exact hrow)]
    simp only [MaxInt64] at hrow
    have a := g.Config.PlayerY.lo
    refine ⟨by rw [hs]; decide, by rw [hs]; decide, ?_, ?_⟩
    · have : (kindHeight g.Sprites ObjectPoop).val = 2 := by rw [hs]; decide
      show g.Config.PlayerY.val < g.Config.PlayerY.val + (kindHeight g.Sprites ObjectPoop).val
      omega
    · have : (dogHeight g.Sprites).val = 3 := by rw [hs]; decide
      show g.Config.PlayerY.val + (dogHeight g.Sprites).val > g.Config.PlayerY.val
      omega
  refine ⟨hcol, ?_⟩
  rw [updateObjects_eq g hs (by
    rw [hobj]
    intro o ho
    rw [List.mem_singleton] at ho
    rw [ho]
    show ValidKind ObjectPoop
    decide)]
  have hret : retained g ⟨16, ObjectPoop⟩ = false := by
    simp [retained, hcol]
  have h16 : ((17 : GoInt) - 1) = 16 := by decide
  simp only [afterObjects, hobj, hspeed, List.map_cons, List.map_nil, moveObject, h16,
    List.foldl_cons, List.foldl_nil, resolveObject, hcol, List.filter_cons, hret,
    List.filter_nil]
  rfl

/-- With the default config the speed is 1 for every score between -10 and 10. -/
theorem default_speed_one (g : Game) (hc : g.Config = DefaultGameConfig)
    (hlo : -10 < g.Score.val) (hhi : g.Score.val < 10) :
    (GetLevelConfig g).ObjectSpeed = 1 := by
  have hdiv : Int.tdiv g.Score.val 10 = 0 := by
    generalize g.Score.val = s at hlo hhi
    interval_cases s <;> decide
  have hq : GoInt.quo g.Score 10 = 0 := by
    apply GoInt.ext
    rw [GoInt.val_quo_ten, hdiv]
    rfl
  rw [GetLevelConfig_speed, hc, hq]
  decide

/-- One more call of `updateObjects` after `n` calls. -/
theorem updateObjectsTimes_succ (n : Nat) :
    ∀ g : Game, updateObjectsTimes (n + 1) g =
      match updateObjectsTimes n g with
      | .error e => .error e
      | .ok g1 => updateObjects g1 := by
  have e1 : ∀ (k : Nat) (g : Game), updateObjectsTimes (k + 1) g =
      match updateObjects g with
      | .error e => .error e
      | .ok g1 => updateObjectsTimes k g1 := fun _ _ => rfl
  induction n with
  | zero =>
    intro g
    rw [e1 0 g]
    simp only [updateObjectsTimes]
    cases updateObjects g <;> rfl
  | succ m ih =>
    intro g
    rw [e1 (m + 1) g, e1 m g]
    cases updateObjects g with
    | error e => rfl
    | ok g1 => exact ih g1

/-- While the poop stays right of the player, `n` calls move it by `n` and change nothing
else. -/
theorem updateObjectsTimes_poop_far (n : Nat) :
    ∀ (g : Game) (x y : GoInt), g.Config = DefaultGameConfig → g.Sprites = NewGameSprites →
      -10 < g.Score.val → g.Score.val < 10 → g.Objects = [⟨x, ObjectPoop⟩] →
      y.val = x.val - (n : Int) → 17 ≤ y.val →
      updateObjectsTimes n g = .ok { g with Objects := [⟨y, ObjectPoop⟩] } := by
  induction n with
  | zero =>
    intro g x y _ _ _ _ hobj hy _
    have hyx : y = x := GoInt.ext (by rw [hy]; simp)
    simp only [updateObjectsTimes, hyx, ← hobj]
  | succ m ih =>
    intro g x y hc hs hlo hhi hobj hy hx
    have hx1 : 18 ≤ x.val := by push_cast at hy; omega
    obtain ⟨hv, _, hstep⟩ :=
      updateObjects_poop_far g x hs (default_speed_one g hc hlo hhi) hobj hx1
    have hrest := ih { g with Objects := [⟨x - 1, ObjectPoop⟩] } (x - 1) y hc hs hlo hhi rfl
      (by rw [hv]; push_cast at hy; omega) hx
    simp only [updateObjectsTimes, hstep, hrest]

/-- The position `80 - n` of the scenario, for the first 63 calls. -/
theorem val_eighty_sub (n : Nat) (hn : n ≤ 63) :
    ((80 : GoInt) - GoInt.ofNat n).val = 80 - (n : Int) := by
  have h80 : (80 : GoInt).val = 80 := rfl
  rw [GoInt.val_sub, GoInt.val_ofNat, h80]
  omega

/-- C12: with the default config, the game sprites, a score below 10 (and above -10, so
that the speed is 1) and a single poop (width 4) at `X = 80`, the player being at
`x = 10` with width 7: each of the first 63 calls of `updateObjects` moves the poop by one
without a collision and changes nothing else (after `n` calls it is at `80 - n`), and the
64th call, which brings it to `X = 16`, detects the collision, applies the collision table
and removes the poop. -/
theorem poop_collides_at_call_64 (g : Game) (hc : g.Config = DefaultGameConfig)
    (hs : g.Sprites = NewGameSprites) (hlo : -10 < g.Score.val) (hhi : g.Score.val < 10)
    (hobj : g.Objects = [⟨80, ObjectPoop⟩]) :
    kindWidth g.Sprites ObjectPoop = 4 ∧ dogWidth g.Sprites = 7 ∧
    (GetLevelConfig g).ObjectSpeed = 1 ∧
    (∀ n : Nat, n ≤ 63 →
      ((80 : GoInt) - GoInt.ofNat n).val = 80 - (n : Int) ∧
      updateObjectsTimes n g
        = .ok { g with Objects := [⟨80 - GoInt.ofNat n, ObjectPoop⟩] } ∧
      collidesWithPlayer g ⟨80 - GoInt.ofNat n, ObjectPoop⟩ = false) ∧
    collidesWithPlayer g ⟨16, ObjectPoop⟩ = true ∧
    updateObjectsTimes 64 g = .ok { handleCollision g ObjectPoop with Objects := [] } := by
  have hsp := default_speed_one g hc hlo hhi
  have hrow : g.Config.PlayerY.val + 3 ≤ MaxInt64 := by rw [hc]; decide
  refine ⟨by rw [hs]; decide, by rw [hs]; decide, hsp, ?_, ?_, ?_⟩
  · intro n hn
    have hv := val_eighty_sub n hn
    have h80 : (80 : GoInt).val = 80 := rfl
    refine ⟨hv, updateObjectsTimes_poop_far n g 80 _ hc hs hlo hhi hobj (by rw [hv, h80])
      (by rw [hv]; omega), ?_⟩
    have hp : ((80 : GoInt) - GoInt.ofNat n + 1).val = 80 - (n : Int) + 1 := by
      rw [GoInt.val_add, hv, GoInt.val_one]
      omega
    have h := (updateObjects_poop_far
      { g with Objects := [⟨80 - GoInt.ofNat n + 1, ObjectPoop⟩] }
      (80 - GoInt.ofNat n + 1) hs hsp rfl (by rw [hp]; omega)).2.1
    have hxe : (80 : GoInt) - GoInt.ofNat n + 1 - 1 = 80 - GoInt.ofNat n := by
      apply GoInt.ext
      rw [GoInt.val_sub, hp, GoInt.val_one, hv]
      omega
    rw [hxe] at h
    exact h
  · exact (updateObjects_poop_hit { g with Objects := [⟨17, ObjectPoop⟩] } hs hrow hsp rfl).1
  · have h63 := updateObjectsTimes_poop_far 63 g 80 17 hc hs hlo hhi hobj (by decide)
      (by decide)
    rw [updateObjectsTimes_succ 63 g, h63]
    have hhit :=
      (updateObjects_poop_hit { g with Objects := [⟨17, ObjectPoop⟩] } hs hrow hsp rfl).2
    rw [handleCollision_objects] at hhit
    exact hhit

/-- Instance of C12 on `poopAtEdgeGame`: after 63 calls the poop is at `X = 17` and the
state is otherwise untouched; the 64th call removes it and, the mouth being closed, takes
one life. -/
theorem poop_collides_at_call_64_witness :
    updateObjectsTimes 63 poopAtEdgeGame
        = .ok { NewGame DefaultGameConfig with Objects := [⟨17, ObjectPoop⟩] } ∧
    updateObjectsTimes 64 poopAtEdgeGame
        = .ok { NewGame DefaultGameConfig with Lives := 4 } := by
  have h := poop_collides_at_call_64 poopAtEdgeGame rfl rfl (by decide) (by decide) rfl
  exact ⟨(h.2.2.2.1 63 (by decide)).2.1, h.2.2.2.2.2⟩

/-! ## Score read by the spawn gate (`Update`) -/

/-- The live list after the objects stage of `Update` is computed from the speed and the
footprints of the state at the start of the call. -/
theorem afterObjects_updateMouth_objects (g : Game) :
    (afterObjects (updateMouth g)).Objects =
      (g.Objects.map (moveObject (GetLevelConfig g).ObjectSpeed)).filter (retained g) := by
  obtain ⟨m1, m2, m3, m4, m5, m6⟩ := updateMouth_frame g
  show ((updateMouth g).Objects.map
    (moveObject (GetLevelConfig (updateMouth g)).ObjectSpeed)).filter
      (retained (updateMouth g)) = _
  rw [m3, GetLevelConfig_congr m2 m5, retained_congr m1 m2]

/-- C14 (amended): on a state with the game sprites, valid kinds and a positive minimum
spawn rate `Update` returns, its movement uses the `ObjectSpeed` that `GetLevelConfig`
gives for the score at the start of the call, and its spawn gate uses the `SpawnRate` that
`GetLevelConfig` gives for the score at the end of the call, that is after the collisions
of the tick; the two levels agree when the collisions leave `Score / 10` unchanged. -/
theorem Update_levels (g : Game) (r : Fin 3) (k : Fin ObjectTypesCount)
    (hs : g.Sprites = NewGameSprites) (hk : ∀ o ∈ g.Objects, ValidKind o.Type_)
    (hmin : 0 < g.Config.MinSpawnRate.val) :
    ∃ g1, Update g r k = .ok g1 ∧
      g1.Objects =
        (g.Objects.map (moveObject (GetLevelConfig g).ObjectSpeed)).filter (retained g) ++
        (if Int.tmod g.FrameCount.val
              (GetLevelConfig { g with Score := g1.Score }).SpawnRate.val = 0 ∧ r ≠ 0
          then [{ X := g.Config.ScreenWidth, Type_ := GoInt.ofNat k.val }] else []) ∧
      (Int.tdiv g1.Score.val 10 = Int.tdiv g.Score.val 10 →
        GetLevelConfig { g with Score := g1.Score } = GetLevelConfig g) := by
  obtain ⟨g3, h3, hu⟩ := Update_ok g r k hs hk hmin
  obtain ⟨m1, m2, m3, m4, m5, m6⟩ := updateMouth_frame g
  obtain ⟨a1, a2, a3, a4, a5⟩ := afterObjects_frame (updateMouth g)
  have hlc : GetLevelConfig (afterObjects (updateMouth g))
      = GetLevelConfig { g with Score := (afterObjects (updateMouth g)).Score } :=
    @GetLevelConfig_congr { g with Score := (afterObjects (updateMouth g)).Score }
      (afterObjects (updateMouth g)) (a2.trans m2) rfl
  have hrate : (GetLevelConfig (afterObjects (updateMouth g))).SpawnRate ≠ 0 :=
    maybeSpawnObject_rate h3
  have hsc : g3.Score = (afterObjects (updateMouth g)).Score := (maybeSpawnObject_lives h3).2
  refine ⟨_, hu, ?_, ?_⟩
  · show g3.Objects = _
    rw [show ({ g3 with FrameCount := g3.FrameCount + 1 } : Game).Score = g3.Score from rfl,
      hsc, ← hlc, ← afterObjects_updateMouth_objects g]
    simp only [maybeSpawnObject, if_neg hrate] at h3
    rw [a5, m6, a2, m2] at h3
    by_cases hgate : Int.tmod g.FrameCount.val
        (GetLevelConfig (afterObjects (updateMouth g))).SpawnRate.val = 0 ∧ r ≠ 0
    · have hgate2 : GoInt.rem g.FrameCount
          (GetLevelConfig (afterObjects (updateMouth g))).SpawnRate = 0 ∧
            (GoInt.ofNat r.val > 0) :=
        ⟨(GoInt.rem_eq_zero_iff _ _).mpr hgate.1, (draw_pos_iff r).mpr hgate.2⟩
      rw [if_pos hgate2] at h3
      rw [if_pos hgate]
      cases h3
      rfl
    · have hgate2 : ¬ (GoInt.rem g.FrameCount
          (GetLevelConfig (afterObjects (updateMouth g))).SpawnRate = 0 ∧
            (GoInt.ofNat r.val > 0)) :=
        fun hc => hgate ⟨(GoInt.rem_eq_zero_iff _ _).mp hc.1, (draw_pos_iff r).mp hc.2⟩
      rw [if_neg hgate2] at h3
      rw [if_neg hgate]
      cases h3
      simp
  · intro hdiv
    rw [show ({ g3 with FrameCount := g3.FrameCount + 1 } : Game).Score = g3.Score from rfl]
      at hdiv ⊢
    have hq : GoInt.quo g3.Score 10 = GoInt.quo g.Score 10 := by
      apply GoInt.ext
      rw [GoInt.val_quo_ten, GoInt.val_quo_ten, hdiv]
    simp only [GetLevelConfig, hq]

/-- Instance of C14 (amended) on `crowdedGame` at frame 0 with draws `r = 1`, `k = 2`:
the five retained objects are followed by the new cat at the right edge. -/
theorem Update_levels_witness :
    ∃ g1, Update crowdedGame 1 2 = .ok g1 ∧
      g1.Objects = [⟨29, 1⟩, ⟨17, 3⟩, ⟨3, 0⟩, ⟨4, 1⟩, ⟨6, 0⟩, ⟨80, 2⟩] := by
  obtain ⟨g1, h1, h2, _⟩ := Update_levels crowdedGame 1 2 rfl (by decide) (by decide)
  refine ⟨g1, h1, ?_⟩
  have hl : g1.Lives = 4 ∧ g1.Score = 0 := by
    have h := h1
    have e : Update crowdedGame 1 2 = .ok
        { NewGame DefaultGameConfig with
          Lives := 4, FrameCount := 1,
          Objects := [⟨29, 1⟩, ⟨17, 3⟩, ⟨3, 0⟩, ⟨4, 1⟩, ⟨6, 0⟩, ⟨80, 2⟩] } := rfl
    rw [e] at h
    cases h
    exact ⟨rfl, rfl⟩
  rw [h2, hl.2]
  decide

/-- C14 as stated fails: in `scoreNineGame` (score 9, frame 24) the spawn rate for the
score at the start of the call is 25 and 24 is no multiple of it, yet `Update` eats the
poop, reaches score 10 and spawns an object, its gate using the spawn rate 24 of score 10. -/
theorem Update_spawn_gate_reads_new_score :
    (GetLevelConfig scoreNineGame).SpawnRate = 25 ∧
    Int.tmod scoreNineGame.FrameCount.val (GetLevelConfig scoreNineGame).SpawnRate.val ≠ 0 ∧
    ∃ g1, Update scoreNineGame 1 2 = .ok g1 ∧ g1.Score = 10 ∧
      g1.Objects = [⟨80, 2⟩] ∧
      (GetLevelConfig { scoreNineGame with Score := g1.Score }).SpawnRate = 24 ∧
      Int.tmod scoreNineGame.FrameCount.val
        (GetLevelConfig { scoreNineGame with Score := g1.Score }).SpawnRate.val = 0 :=
  ⟨by decide, by decide, _, rfl, by decide, by decide, by decide, by decide⟩

/-! ## Mouth-timer invariant -/

/-- The mouth update keeps the mouth-timer invariant. -/
theorem updateMouth_mouthInv (g : Game) (hi : MouthInv g) : MouthInv (updateMouth g) := by
  obtain ⟨h1, h2⟩ := hi
  have b1 := g.Config.MouthOpenDuration.hi
  unfold updateMouth
  split
  · rename_i ho
    obtain ⟨a, b⟩ := h2 ho
    have e : (g.MouthTime + 1).val = g.MouthTime.val + 1 := by
      rw [GoInt.val_add, GoInt.val_one]; omega
    dsimp only
    split
    · exact ⟨fun _ => rfl, fun h => by cases h⟩
    · rename_i hlt
      refine ⟨fun h => ?_, fun _ => ⟨?_, ?_⟩⟩
      · exact absurd (ho.symm.trans h) (by decide)
      · show 0 ≤ (g.MouthTime + 1).val
        omega
      · show (g.MouthTime + 1).val < g.Config.MouthOpenDuration.val
        have : ¬ ((g.MouthTime + 1).val ≥ g.Config.MouthOpenDuration.val) := hlt
        omega
  · exact ⟨h1, h2⟩

/-- C19: with `MouthOpenDuration >= 1` the mouth-timer invariant (`MouthTime = 0` when the
mouth is closed, `0 <= MouthTime < MouthOpenDuration` when it is open) holds in the state
built by `NewGame` and is preserved by every `Update`, for all draws, and by every
`HandleInput`, for all events; `Update` does return on every well-formed state. -/
theorem mouth_timer_invariant :
    (∀ c : GameConfig, 1 ≤ c.MouthOpenDuration.val → MouthInv (NewGame c)) ∧
    (∀ (g g1 : Game) (r : Fin 3) (k : Fin ObjectTypesCount),
      1 ≤ g.Config.MouthOpenDuration.val → MouthInv g → Update g r k = .ok g1 →
        MouthInv g1) ∧
    (∀ (g : Game) (ev : Event),
      1 ≤ g.Config.MouthOpenDuration.val → MouthInv g → MouthInv (HandleInput g ev).1) ∧
    (∀ (g : Game) (r : Fin 3) (k : Fin ObjectTypesCount),
      WellFormed g → ∃ g1, Update g r k = .ok g1) := by
  refine ⟨?_, ?_, ?_, ?_⟩
  · intro c _
    exact ⟨fun _ => rfl, fun h => by cases h⟩
  · intro g g1 r k _ hi hu
    obtain ⟨m1, m2, m3⟩ := Update_mouth hu
    obtain ⟨u1, u2⟩ := updateMouth_mouthInv g hi
    have hc : (updateMouth g).Config = g.Config := (updateMouth_frame g).2.1
    refine ⟨fun h => ?_, fun h => ?_⟩
    · rw [m2]; exact u1 (m1.symm.trans h)
    · rw [m2, m3, ← hc]; exact u2 (m1.symm.trans h)
  · intro g ev hD hi
    by_cases hopen : ev.Type_ = EventKey ∧ ¬ (ev.Key = KeyEsc ∨ ev.Ch = runeQ) ∧
        ev.Key = KeySpace ∧ g.MouthOpen = false
    · obtain ⟨h1, h2, h3, h4⟩ := hopen
      have hne : ev.Ch ≠ runeQ := fun h => h2 (Or.inr h)
      rw [HandleInput_space g ev h4 ⟨h1, h3, hne⟩]
      refine ⟨fun h => ?_, fun _ => ⟨le_refl 0, ?_⟩⟩
      · cases h
      · show (0 : Int) < g.Config.MouthOpenDuration.val
        omega
    · have hsame : (HandleInput g ev).1 = g := by
        unfold HandleInput
        split
        · rename_i h1
          split
          · rfl
          · rename_i h2
            split
            · rename_i h3
              exfalso
              apply hopen
              refine ⟨h1, h2, h3.1, ?_⟩
              have := h3.2
              simpa using this
            · rfl
        · rfl
      rw [hsame]
      exact hi
  · intro g r k hw
    obtain ⟨g1, h1, _⟩ := Update_wellFormed g r k hw
    exact ⟨g1, h1⟩

/-- Instance of C19: the invariant holds in a fresh default game, after the space key, and
after a following `Update`. -/
theorem mouth_timer_invariant_witness :
    MouthInv (NewGame DefaultGameConfig) ∧
    MouthInv (HandleInput (NewGame DefaultGameConfig) spaceKey).1 ∧
    ∃ g1, Update (HandleInput (NewGame DefaultGameConfig) spaceKey).1 1 0 = .ok g1 ∧
      MouthInv g1 := by
  have h0 := mouth_timer_invariant.1 DefaultGameConfig (by decide)
  have h1 := mouth_timer_invariant.2.2.1 (NewGame DefaultGameConfig) spaceKey (by decide) h0
  obtain ⟨g1, hu⟩ := mouth_timer_invariant.2.2.2
    (HandleInput (NewGame DefaultGameConfig) spaceKey).1 1 0 ⟨rfl, by decide, by decide⟩
  exact ⟨h0, h1, g1, hu,
    mouth_timer_invariant.2.1 _ g1 1 0 (by decide) h1 hu⟩

/-! ## Sprite indexing -/

/-- A successful collision check leaves the sprites unchanged. -/
theorem checkObjectCollision_sprites {g g1 : Game} {o : Object} {hit : Bool}
    (h : checkObjectCollision g o = .ok (g1, hit)) : g1.Sprites = g.Sprites := by
  have hf := handleCollision_frame g o.Type_
  simp only [checkObjectCollision, bind, Except.bind, pure, Except.pure] at h
  split at h
  · cases h
  · split at h
    · cases h
    · split at h
      · cases h
      · split at h
        · cases h
          exact hf.1
        · cases h
          rfl

/-- A successful iteration of the loop leaves the sprites unchanged and appends at most
the moved object to the new list. -/
theorem updateObjectsStep_kinds {lc : LevelConfig} {g g1 : Game} {acc acc1 : List Object}
    {o : Object} (h : updateObjectsStep lc g acc o = .ok (g1, acc1)) :
    g1.Sprites = g.Sprites ∧ (acc1 = acc ∨ acc1 = acc ++ [moveObject lc.ObjectSpeed o]) := by
  simp only [updateObjectsStep, bind, Except.bind, pure, Except.pure] at h
  split at h
  · cases h
  · rename_i p hp
    obtain ⟨g2, hit⟩ := p
    have hm := checkObjectCollision_sprites hp
    dsimp only at h
    split at h
    · cases h; exact ⟨hm, Or.inl rfl⟩
    · split at h
      · cases h
      · split at h
        · cases h
        · split at h
          · cases h; exact ⟨hm, Or.inr rfl⟩
          · cases h; exact ⟨hm, Or.inl rfl⟩

/-- A successful loop leaves the sprites unchanged, and every object of the new list was
there before or has the kind of an object of the old list. -/
theorem updateObjectsLoop_kinds (lc : LevelConfig) (os : List Object) :
    ∀ (g g1 : Game) (acc acc1 : List Object),
      updateObjectsLoop lc g acc os = .ok (g1, acc1) →
      g1.Sprites = g.Sprites ∧
      ∀ x ∈ acc1, x ∈ acc ∨ ∃ o ∈ os, x.Type_ = o.Type_ := by
  induction os with
  | nil =>
    intro g g1 acc acc1 h
    simp only [updateObjectsLoop] at h
    cases h
    exact ⟨rfl, fun x hx => Or.inl hx⟩
  | cons o rest ih =>
    intro g g1 acc acc1 h
    simp only [updateObjectsLoop] at h
    split at h
    · cases h
    · rename_i g2 acc2 hstep
      obtain ⟨a1, a2⟩ := updateObjectsStep_kinds hstep
      obtain ⟨b1, b2⟩ := ih _ _ _ _ h
      refine ⟨b1.trans a1, ?_⟩
      intro x hx
      rcases b2 x hx with hx2 | ⟨o2, ho2, he⟩
      · rcases a2 with a2 | a2
        · rw [a2] at hx2; exact Or.inl hx2
        · rw [a2] at hx2
          rcases List.mem_append.mp hx2 with hx3 | hx3
          · exact Or.inl hx3
          · rw [List.mem_singleton] at hx3
            exact Or.inr ⟨o, List.mem_cons_self o rest, by rw [hx3]; rfl⟩
      · exact Or.inr ⟨o2, List.mem_cons_of_mem o ho2, he⟩

/-- A successful `updateObjects` leaves the sprites unchanged and retains only objects
whose kind was the kind of a live object. -/
theorem updateObjects_kinds {g g1 : Game} (h : updateObjects g = .ok g1) :
    g1.Sprites = g.Sprites ∧ ∀ x ∈ g1.Objects, ∃ o ∈ g.Objects, x.Type_ = o.Type_ := by
  simp only [updateObjects, bind, Except.bind, pure, Except.pure] at h
  split at h
  · cases h
  · rename_i p hp
    obtain ⟨g2, acc⟩ := p
    cases h
    obtain ⟨a1, a2⟩ := updateObjectsLoop_kinds _ _ g g2 [] acc hp
    refine ⟨a1, ?_⟩
    intro x hx
    rcases a2 x hx with hx2 | hx2
    · cases hx2
    · exact hx2

/-- A successful `Update` leaves the sprites unchanged, and every live object after it has
the kind of a live object before it or the kind drawn for the spawn. -/
theorem Update_kinds {g g1 : Game} {r : Fin 3} {k : Fin ObjectTypesCount}
    (h : Update g r k = .ok g1) :
    g1.Sprites = g.Sprites ∧
    ∀ x ∈ g1.Objects, (∃ o ∈ g.Objects, x.Type_ = o.Type_) ∨ x.Type_ = GoInt.ofNat k.val := by
  simp only [Update, bind, Except.bind, pure, Except.pure] at h
  split at h
  · cases h
  · rename_i g2 h2
    split at h
    · cases h
    · rename_i g3 h3
      cases h
      obtain ⟨a1, a2⟩ := updateObjects_kinds h2
      obtain ⟨m1, _, m3, _⟩ := updateMouth_frame g
      have hrate : (GetLevelConfig g2).SpawnRate ≠ 0 := maybeSpawnObject_rate h3
      obtain ⟨g3b, hsp, _, _, _, hs, _, _, _, hobj⟩ := maybeSpawnObject_ok g2 r k hrate
      rw [h3] at hsp
      cases hsp
      refine ⟨(hs.trans a1).trans m1, ?_⟩
      intro x hx
      have hx' : x ∈ g3.Objects := hx
      have hold : ∀ y ∈ g2.Objects, ∃ o ∈ g.Objects, y.Type_ = o.Type_ := by
        intro y hy
        obtain ⟨o, ho, he⟩ := a2 y hy
        rw [m3] at ho
        exact ⟨o, ho, he⟩
      rcases hobj with hobj | hobj
      · rw [hobj] at hx'
        exact Or.inl (hold x hx')
      · rw [hobj] at hx'
        rcases List.mem_append.mp hx' with hx2 | hx2
        · exact Or.inl (hold x hx2)
        · rw [List.mem_singleton] at hx2
          exact Or.inr (by rw [hx2])

/-- Along every sequence of calls that returns, the sprites stay those of `NewGameSprites`
and the live objects keep valid kinds. -/
theorem applySteps_sprites_valid (steps : List Step) :
    ∀ g g1 : Game, g.Sprites = NewGameSprites → (∀ o ∈ g.Objects, ValidKind o.Type_) →
      applySteps g steps = .ok g1 →
      g1.Sprites = NewGameSprites ∧ ∀ o ∈ g1.Objects, ValidKind o.Type_ := by
  induction steps with
  | nil =>
    intro g g1 hs hk h
    simp only [applySteps] at h
    cases h
    exact ⟨hs, hk⟩
  | cons s rest ih =>
    intro g g1 hs hk h
    cases s with
    | input ev =>
      simp only [applySteps, applyStep] at h
      obtain ⟨f1, _, f3, _⟩ := HandleInput_frame g ev
      exact ih _ g1 (f1.trans hs) (by rw [f3]; exact hk) h
    | tick r k =>
      simp only [applySteps, applyStep] at h
      split at h
      · cases h
      · rename_i g2 h2
        obtain ⟨u1, u2⟩ := Update_kinds h2
        refine ih g2 g1 (u1.trans hs) ?_ h
        intro x hx
        rcases u2 x hx with ⟨o, ho, he⟩ | he
        · rw [he]; exact hk o ho
        · rw [he]; exact validKind_draw k

/-- C18: the sprite-indexing invariant (every live object has a kind in
`[0, ObjectTypesCount)`, there are `ObjectTypesCount` object sprites, each with at least
one row) holds in the state built by `NewGame` and is preserved by `Update`, for all
draws, and by `HandleInput`; hence on every reachable state `updateObjects` returns and
`checkObjectCollision` returns for every live object at every position, no lookup being
out of range.  Reachable states abound: with a positive minimum spawn rate every sequence
of calls returns. -/
theorem sprite_index_in_range :
    (∀ c : GameConfig, SpriteIndexInv (NewGame c)) ∧
    (∀ (g g1 : Game) (r : Fin 3) (k : Fin ObjectTypesCount),
      SpriteIndexInv g → Update g r k = .ok g1 → SpriteIndexInv g1) ∧
    (∀ (g : Game) (ev : Event), SpriteIndexInv g → SpriteIndexInv (HandleInput g ev).1) ∧
    (∀ g : Game, Reachable g →
      SpriteIndexInv g ∧ (∃ g1, updateObjects g = .ok g1) ∧
      ∀ o ∈ g.Objects, ∀ x : GoInt, ∃ res, checkObjectCollision g ⟨x, o.Type_⟩ = .ok res) ∧
    (∀ (c : GameConfig) (steps : List Step), 0 < c.MinSpawnRate.val →
      ∃ g, applySteps (NewGame c) steps = .ok g) := by
  have hnew : NewGameSprites.Objects.length = ObjectTypesCount ∧
      ∀ s ∈ NewGameSprites.Objects, s ≠ [] := by
    constructor <;> decide
  refine ⟨?_, ?_, ?_, ?_, ?_⟩
  · intro c
    refine ⟨?_, hnew.1, hnew.2⟩
    intro o ho
    cases ho
  · intro g g1 r k hi hu
    obtain ⟨i1, i2, i3⟩ := hi
    obtain ⟨u1, u2⟩ := Update_kinds hu
    refine ⟨?_, by rw [u1]; exact i2, by rw [u1]; exact i3⟩
    intro x hx
    rcases u2 x hx with ⟨o, ho, he⟩ | he
    · rw [he]; exact i1 o ho
    · rw [he]; exact validKind_draw k
  · intro g ev hi
    obtain ⟨i1, i2, i3⟩ := hi
    obtain ⟨f1, _, f3, _⟩ := HandleInput_frame g ev
    exact ⟨by rw [f3]; exact i1, by rw [f1]; exact i2, by rw [f1]; exact i3⟩
  · intro g hr
    obtain ⟨c, steps, hrun⟩ := hr
    obtain ⟨hs, hk⟩ := applySteps_sprites_valid steps (NewGame c) g rfl
      (by intro o ho; cases ho) hrun
    refine ⟨⟨hk, by rw [hs]; exact hnew.1, by rw [hs]; exact hnew.2⟩,
      ⟨_, updateObjects_eq g hs hk⟩, ?_⟩
    intro o ho x
    exact ⟨_, checkObjectCollision_eq g ⟨x, o.Type_⟩ hs (hk o ho)⟩
  · intro c steps hmin
    obtain ⟨g, hg, _⟩ := applySteps_wellFormed steps (NewGame c)
      ⟨rfl, (fun o ho => by cases ho), hmin⟩
    exact ⟨g, hg⟩

/-- Instance of C18: the state reached from a fresh default game by the space key and
`sevenTicks` satisfies the invariant, and `updateObjects` returns on it. -/
theorem sprite_index_in_range_witness :
    ∃ g, applySteps (NewGame DefaultGameConfig) (.input spaceKey :: sevenTicks) = .ok g ∧
      SpriteIndexInv g ∧ ∃ g1, updateObjects g = .ok g1 := by
  obtain ⟨g, hg⟩ := sprite_index_in_range.2.2.2.2 DefaultGameConfig
    (.input spaceKey :: sevenTicks) (by decide)
  have h := sprite_index_in_range.2.2.2.1 g ⟨DefaultGameConfig, _, hg⟩
  exact ⟨g, hg, h.1, h.2.1⟩

/-! ## Shape of the sprites (`NewGameSprites`) -/

/-- C20: the sprites of `NewGameSprites` are rectangular except the bone: both dogs are
7 x 3 (so `DogOpen` has the footprint of `DogClosed`), the poop is 4 x 2, the cat 7 x 3,
the stick 7 x 2, but the rows of the bone are 6 and 7 long, so the footprint width taken
from its first row is 6 while its widest row is 7.  A bone spawned at `X = 5` on a narrow
screen and moved to `X = 4` is retained without a collision, whereas the rectangle test
with the width of its widest row reports one. -/
theorem bone_sprite_not_rectangular :
    rowLengths NewGameSprites.DogClosed = [7, 7, 7] ∧
    rowLengths NewGameSprites.DogOpen = [7, 7, 7] ∧
    rowLengths (kindSprite NewGameSprites ObjectPoop) = [4, 4] ∧
    rowLengths (kindSprite NewGameSprites ObjectCat) = [7, 7, 7] ∧
    rowLengths (kindSprite NewGameSprites ObjectStick) = [7, 7] ∧
    rowLengths (kindSprite NewGameSprites ObjectBone) = [6, 7] ∧
    isRectangular (kindSprite NewGameSprites ObjectBone) = false ∧
    kindWidth NewGameSprites ObjectBone = 6 ∧
    widestRow (kindSprite NewGameSprites ObjectBone) = 7 ∧
    (∃ g1 g2, Update narrowGame 1 1 = .ok g1 ∧ g1.Objects = [⟨5, ObjectBone⟩] ∧
      updateObjects g1 = .ok g2 ∧ g2.Objects = [⟨4, ObjectBone⟩] ∧
      collidesWithPlayer g1 ⟨4, ObjectBone⟩ = false ∧
      CheckCollision PlayerXPosition g1.Config.PlayerY (dogWidth g1.Sprites)
        (dogHeight g1.Sprites) 4 g1.Config.PlayerY
        (GoInt.wrap (widestRow (kindSprite g1.Sprites ObjectBone)))
        (kindHeight g1.Sprites ObjectBone) = true) := by
  refine ⟨by decide, by decide, by decide, by decide, by decide, by decide, by decide,
    by decide, by decide, _, _, rfl, by decide, rfl, by decide, by decide, by decide⟩

end Pacman
